import Mathlib

/-!
Shallow embedding of the object-tracking core of the repository
(`src/tracker.py` and the processing loop of `src/main.py`).

Numeric conventions: pixel coordinates and timestamps are embedded as
rationals (`ℚ`); frame counters, object ids and thresholds measured in
frames are naturals.  Python's insertion-ordered `dict` keyed by object id
is embedded as a `List Obj` whose entries carry their key in the `id`
field; `dictGet`, `dictSet` and `dictModify` below reproduce the `dict`
operations the source uses (lookup, key assignment, in-place value
mutation), including Python's replace-in-place behaviour when a key is
already present.
-/

namespace Track

/-- An axis-aligned bounding box `(xmin, ymin, xmax, ymax)`, as the
4-tuples used throughout `tracker.py`. -/
structure Box where
  x1 : ℚ
  y1 : ℚ
  x2 : ℚ
  y2 : ℚ
deriving DecidableEq

/-- One detection as consumed by `ObjectTracker.update`: a bounding box and
a label (`detection['bbox']`, `detection['label']`). -/
structure Detection where
  bbox : Box
  label : String
deriving DecidableEq

/-- One entry of `tracked_objects`: the record built at
`tracker.py` lines 72-81. -/
structure Obj where
  id : Nat
  label : String
  bbox : Box
  first_seen : ℚ
  last_seen : ℚ
  total_time : ℚ
  missing_frames : Nat
  missing : Bool
deriving DecidableEq

/-- The `ObjectTracker` instance state (`__init__`, lines 27-33). -/
structure ObjectTracker where
  tracked_objects : List Obj
  next_object_id : Nat
  iou_threshold : ℚ
  first_frame_time : Option ℚ
  selected_objects : List String
  missing_threshold : Nat
deriving DecidableEq

/-- `ObjectTracker.__init__`: empty table, next id 1, no epoch yet. -/
def mkTracker (iou_threshold : ℚ) (selected_objects : List String)
    (missing_threshold : Nat) : ObjectTracker :=
  { tracked_objects := []
    next_object_id := 1
    iou_threshold := iou_threshold
    first_frame_time := none
    selected_objects := selected_objects
    missing_threshold := missing_threshold }

/-- Python `self.tracked_objects[k]` (lookup): first entry whose id is `k`;
with distinct ids this is dict lookup. -/
def dictGet (l : List Obj) (k : Nat) : Option Obj :=
  l.find? (fun o => o.id == k)

/-- Python `self.tracked_objects[k] = v` (key assignment): replace in place
if the key is present, else append at the end (dict insertion order). -/
def dictSet (l : List Obj) (k : Nat) (v : Obj) : List Obj :=
  match l with
  | [] => [v]
  | o :: rest => if o.id == k then v :: rest else o :: dictSet rest k v

/-- In-place mutation of the entry at key `k`
(`obj_info = self.tracked_objects[k]; obj_info[...] = ...`). -/
def dictModify (l : List Obj) (k : Nat) (f : Obj → Obj) : List Obj :=
  match l with
  | [] => []
  | o :: rest => if o.id == k then f o :: rest else o :: dictModify rest k f

/-- `ObjectTracker._iou` (lines 118-132): intersection over union of two
boxes, defined as 0 when the union area is not positive. -/
def iou (box1 box2 : Box) : ℚ :=
  let xi1 := max box1.x1 box2.x1
  let yi1 := max box1.y1 box2.y1
  let xi2 := min box1.x2 box2.x2
  let yi2 := min box1.y2 box2.y2
  let inter_area := max (xi2 - xi1) 0 * max (yi2 - yi1) 0
  let box1_area := (box1.x2 - box1.x1) * (box1.y2 - box1.y1)
  let box2_area := (box2.x2 - box2.x1) * (box2.y2 - box2.y1)
  let union_area := box1_area + box2_area - inter_area
  if union_area > 0 then inter_area / union_area else 0

/-- The area of a box as computed at `_iou` lines 128-129. -/
def boxArea (b : Box) : ℚ := (b.x2 - b.x1) * (b.y2 - b.y1)

/-- Two boxes are disjoint when they do not overlap on the x-axis or on
the y-axis (touching boundaries included). -/
def BoxDisjoint (a b : Box) : Prop :=
  a.x2 ≤ b.x1 ∨ b.x2 ≤ a.x1 ∨ a.y2 ≤ b.y1 ∨ b.y2 ≤ a.y1

/-- The candidate test of `_find_matching_object` line 96: active, same
label, and IoU strictly above the threshold. -/
def matchPred (t : ObjectTracker) (bbox : Box) (label : String) (o : Obj) : Bool :=
  !o.missing && o.label == label && decide (iou bbox o.bbox > t.iou_threshold)

/-- `ObjectTracker._find_matching_object` (lines 94-98): id of the first
entry, in table order, passing `matchPred`; `none` if there is none. -/
def find_matching_object (t : ObjectTracker) (bbox : Box) (label : String) : Option Nat :=
  (t.tracked_objects.find? (matchPred t bbox label)).map Obj.id

/-- The in-place update applied to a matched object (`update` lines
62-66): new bbox, `last_seen = frame_time`, recomputed `total_time`, and
`missing_frames` reset to 0. -/
def matchMod (d : Detection) (frame_time : ℚ) (o : Obj) : Obj :=
  { o with bbox := d.bbox, last_seen := frame_time,
           total_time := frame_time - o.first_seen, missing_frames := 0 }

/-- The record a new object is created with (`update` lines 72-81). -/
def newObjOf (t : ObjectTracker) (d : Detection) (frame_time : ℚ) : Obj :=
  { id := t.next_object_id, label := d.label, bbox := d.bbox,
    first_seen := frame_time, last_seen := frame_time,
    total_time := 0, missing_frames := 0, missing := false }

/-- The body of the detection loop at `update` lines 51-82, for one
detection: skip a non-selected label, update the matched object in place
and record its id in `matched_ids`, or create a new object under the next
id.  The third component is instrumentation: the identity this detection
resolved to (`none` for a skipped label, the matched id on a match, the
fresh id on creation). -/
def detStep (t : ObjectTracker) (matched : List Nat) (d : Detection)
    (frame_time : ℚ) : ObjectTracker × List Nat × Option Nat :=
  if d.label ∈ t.selected_objects then
    match find_matching_object t d.bbox d.label with
    | some mid =>
      ({ t with tracked_objects :=
          dictModify t.tracked_objects mid (matchMod d frame_time) },
       mid :: matched, some mid)
    | none =>
      ({ t with tracked_objects :=
          dictSet t.tracked_objects t.next_object_id (newObjOf t d frame_time),
                next_object_id := t.next_object_id + 1 },
       t.next_object_id :: matched, some t.next_object_id)
  else
    (t, matched, none)

/-- The detection loop of `update` (lines 51-82): `detStep` folded over the
detection list, collecting the per-detection resolution trace. -/
def detPass (t : ObjectTracker) (matched : List Nat) (ds : List Detection)
    (frame_time : ℚ) : ObjectTracker × List Nat × List (Option Nat) :=
  match ds with
  | [] => (t, matched, [])
  | d :: rest =>
    let s := detStep t matched d frame_time
    let r := detPass s.1 s.2.1 rest frame_time
    (r.1, r.2.1, s.2.2 :: r.2.2)

/-- The per-object body of the loop at `update` lines 85-91: unmatched
active objects have `missing_frames` incremented and retire at the
threshold; matched objects with a positive counter get it reset. -/
def missUpdate (threshold : Nat) (matched : List Nat) (o : Obj) : Obj :=
  if o.id ∉ matched ∧ o.missing = false then
    if threshold ≤ o.missing_frames + 1 then
      { o with missing_frames := o.missing_frames + 1, missing := true }
    else { o with missing_frames := o.missing_frames + 1 }
  else if o.id ∈ matched ∧ o.missing_frames > 0 then
    { o with missing_frames := 0 }
  else o

/-- Lines 45-46 of `update`: record the epoch on the very first call. -/
def withEpoch (t : ObjectTracker) (frame_time : ℚ) : ObjectTracker :=
  { t with first_frame_time :=
      match t.first_frame_time with
      | none => some frame_time
      | some e => some e }

/-- `ObjectTracker.update` (lines 42-91), instrumented: also returns the
`matched_ids` set of the call and the per-detection resolution trace. -/
def updateFull (t : ObjectTracker) (detections : List Detection)
    (frame_time : ℚ) : ObjectTracker × List Nat × List (Option Nat) :=
  let r := detPass (withEpoch t frame_time) [] detections frame_time
  ({ r.1 with tracked_objects :=
      r.1.tracked_objects.map (missUpdate r.1.missing_threshold r.2.1) },
   r.2.1, r.2.2)

/-- `ObjectTracker.update`: the new tracker state. -/
def update (t : ObjectTracker) (detections : List Detection)
    (frame_time : ℚ) : ObjectTracker :=
  (updateFull t detections frame_time).1

/-- One row of `get_detailed_summary`'s per-label lists (lines 107-114). -/
structure SummaryEntry where
  id : Nat
  first_seen : ℚ
  last_seen : ℚ
  total_time : ℚ
  missing_frames : Nat
  missing : Bool
deriving DecidableEq

/-- Append an entry to a label's list in the summary dict
(`summary[label].append(...)`, creating the key on first occurrence). -/
def summaryAdd (s : List (String × List SummaryEntry)) (label : String)
    (e : SummaryEntry) : List (String × List SummaryEntry) :=
  match s with
  | [] => [(label, [e])]
  | (l, es) :: rest =>
    if l = label then (l, es ++ [e]) :: rest else (l, es) :: summaryAdd rest label e

/-- The summary row built from one tracked object, relative to the epoch
`e` (`first_seen - self.first_frame_time`, etc.). -/
def entryOf (e : ℚ) (o : Obj) : SummaryEntry :=
  { id := o.id
    first_seen := o.first_seen - e
    last_seen := o.last_seen - e
    total_time := o.total_time
    missing_frames := o.missing_frames
    missing := o.missing }

/-- `ObjectTracker.get_detailed_summary` (lines 100-115).  The source reads
`self.first_frame_time`, which is only ever used once a frame has been
processed; the `getD 0` default covers the empty-table case where the
Python value would be `None` (and the loop body never runs). -/
def get_detailed_summary (t : ObjectTracker) : List (String × List SummaryEntry) :=
  t.tracked_objects.foldl
    (fun s o => summaryAdd s o.label (entryOf (t.first_frame_time.getD 0) o)) []

/-- A sequence of `update` calls, each given by its detection list and
frame time, applied in order. -/
def runSeq (t : ObjectTracker) : List (List Detection × ℚ) → ObjectTracker
  | [] => t
  | (ds, ft) :: rest => runSeq (update t ds ft) rest

/-- Holds (as `true`) when the object id `oid` is in no call's
`matched_ids` along the run: it is matched by no detection of any call. -/
def neverMatchedB (oid : Nat) : ObjectTracker → List (List Detection × ℚ) → Bool
  | _, [] => true
  | t, (ds, ft) :: rest =>
    !((updateFull t ds ft).2.1.contains oid) && neverMatchedB oid (update t ds ft) rest

/-- A frame as queued by `capture_frames` in `main.py`: the counter, the
capture timestamp, and — since the detector is an external collaborator —
the detection list `perform_object_detection` returns for its payload. -/
structure Frame where
  count : Nat
  timestamp : ℚ
  dets : List Detection
deriving DecidableEq

/-- The outcome of one iteration of the `main.py` processing loop:
a frame was processed (the tracker was updated with its detections), or
the loop slept and retried, or the iteration read the loop variables
`frame_count, timestamp, frame` before any assignment (Python raises
`NameError`, caught by the surrounding `except Exception`). -/
inductive IterResult where
  | processedFrame (f : Frame)
  | slept
  | nameError
deriving DecidableEq

/-- The mutable state of the `main` processing loop (lines 129-171):
the frame queue (oldest first), the current values of the loop variables
`(frame_count, timestamp, frame)` (`none` before first assignment),
`last_catchup_time`, `processed_frame_count`, the tracker, and
`start_time`. -/
structure LoopState where
  queue : List Frame
  regs : Option Frame
  last_catchup_time : ℚ
  processed_frame_count : Nat
  tracker : ObjectTracker
  start_time : ℚ
deriving DecidableEq

/-- Lines 164-171 of `main.py`: processing falls through to here with the
loop variables holding frame `f`; the count is incremented and the tracker
updated at `frame_time = timestamp - start_time`. -/
def processFrame (s : LoopState) (f : Frame) (queue' : List Frame)
    (last' : ℚ) : LoopState × IterResult :=
  ({ s with queue := queue', regs := some f, last_catchup_time := last',
            processed_frame_count := s.processed_frame_count + 1,
            tracker := update s.tracker f.dets (f.timestamp - s.start_time) },
   .processedFrame f)

/-- One iteration of the `while time.time() < end_time` loop of `main.py`
(lines 142-171), at wall-clock time `current_time`.  In the catch-up
branch the queue is drained and the loop variables end at the newest
queued frame; when the queue was already empty they keep their previous
values and control still falls through to the processing code — there is
no `continue` on that path. -/
def loopIter (s : LoopState) (current_time catchup_interval : ℚ) :
    LoopState × IterResult :=
  if current_time - s.last_catchup_time ≥ catchup_interval then
    match s.queue.getLast? with
    | some f => processFrame s f [] current_time
    | none =>
      match s.regs with
      | some f => processFrame s f [] s.last_catchup_time
      | none => ({ s with queue := [] }, .nameError)
  else
    match s.queue with
    | [] => (s, .slept)
    | f :: rest => processFrame s f rest s.last_catchup_time

/-- Tracker states reachable from a freshly constructed `ObjectTracker` by
a sequence of `update` calls. -/
inductive Reachable : ObjectTracker → Prop
  | init (thr : ℚ) (sel : List String) (mth : Nat) : Reachable (mkTracker thr sel mth)
  | step {t : ObjectTracker} (ds : List Detection) (ft : ℚ) :
      Reachable t → Reachable (update t ds ft)

/-- Table invariant of reachable states: the ids in insertion order are
exactly `1, 2, ..., n` and the next id to assign is `n + 1`. -/
def Inv (t : ObjectTracker) : Prop :=
  t.tracked_objects.map Obj.id = List.range' 1 t.tracked_objects.length ∧
  t.next_object_id = t.tracked_objects.length + 1

/-! Lemmas about the embedded dict operations. -/

theorem dictGet_cons (o : Obj) (rest : List Obj) (k : Nat) :
    dictGet (o :: rest) k = if o.id = k then some o else dictGet rest k := by
  by_cases h : o.id = k
  · rw [if_pos h]
    exact List.find?_cons_of_pos rest (by simpa using h)
  · rw [if_neg h]
    exact List.find?_cons_of_neg rest (by simpa using h)

theorem mem_of_dictGet {l : List Obj} {k : Nat} {o : Obj}
    (h : dictGet l k = some o) : o ∈ l ∧ o.id = k := by
  refine ⟨List.mem_of_find?_eq_some h, ?_⟩
  have := List.find?_some h
  simpa using this

theorem dictGet_of_mem_nodup {l : List Obj} (h : (l.map Obj.id).Nodup) {o : Obj}
    (ho : o ∈ l) : dictGet l o.id = some o := by
  induction l with
  | nil => cases ho
  | cons a rest ih =>
    rcases List.mem_cons.mp ho with rfl | hmem
    · simp [dictGet_cons]
    · rw [dictGet_cons]
      have hne : a.id ≠ o.id := by
        intro he
        exact (List.nodup_cons.mp h).1 (he ▸ List.mem_map_of_mem Obj.id hmem)
      rw [if_neg hne]
      exact ih (List.nodup_cons.mp h).2 hmem

theorem dictModify_map_id {f : Obj → Obj} (hf : ∀ o, (f o).id = o.id)
    (l : List Obj) (k : Nat) : (dictModify l k f).map Obj.id = l.map Obj.id := by
  induction l with
  | nil => rfl
  | cons a rest ih =>
    simp only [dictModify]
    by_cases h : a.id = k <;> simp [h, hf, ih]

theorem dictModify_length (l : List Obj) (k : Nat) (f : Obj → Obj) :
    (dictModify l k f).length = l.length := by
  induction l with
  | nil => rfl
  | cons a rest ih =>
    simp only [dictModify]
    by_cases h : a.id = k <;> simp [h, ih]

theorem dictGet_dictModify_self {f : Obj → Obj} (hf : ∀ o, (f o).id = o.id)
    (l : List Obj) (k : Nat) :
    dictGet (dictModify l k f) k = (dictGet l k).map f := by
  induction l with
  | nil => rfl
  | cons a rest ih =>
    simp only [dictModify]
    by_cases hak : a.id = k
    · rw [if_pos (by simpa using hak), dictGet_cons, dictGet_cons,
        if_pos ((hf a).trans hak), if_pos hak, Option.map_some']
    · rw [if_neg (by simpa using hak), dictGet_cons, dictGet_cons,
        if_neg hak, if_neg hak, ih]

theorem dictGet_dictModify_ne {f : Obj → Obj} (hf : ∀ o, (f o).id = o.id)
    (l : List Obj) {k j : Nat} (hjk : j ≠ k) :
    dictGet (dictModify l k f) j = dictGet l j := by
  induction l with
  | nil => rfl
  | cons a rest ih =>
    simp only [dictModify]
    by_cases hak : a.id = k
    · have haj : a.id ≠ j := fun h => hjk (h.symm.trans hak)
      rw [if_pos (by simpa using hak), dictGet_cons, dictGet_cons,
        if_neg (fun h => haj ((hf a).symm.trans h)), if_neg haj]
    · rw [if_neg (by simpa using hak), dictGet_cons, dictGet_cons, ih]

theorem dictSet_fresh {l : List Obj} {k : Nat} (h : k ∉ l.map Obj.id) (v : Obj) :
    dictSet l k v = l ++ [v] := by
  induction l with
  | nil => rfl
  | cons a rest ih =>
    simp only [dictSet]
    have hak : a.id ≠ k := fun he => h (by rw [List.map_cons, ← he]; exact List.mem_cons_self _ _)
    rw [if_neg (by simpa using hak)]
    simp only [List.cons_append, List.cons.injEq, true_and]
    exact ih (fun hm => h (by rw [List.map_cons]; exact List.mem_cons_of_mem _ hm))

theorem dictGet_append (l₁ l₂ : List Obj) (k : Nat) :
    dictGet (l₁ ++ l₂) k = (dictGet l₁ k).or (dictGet l₂ k) := by
  simp [dictGet, List.find?_append]

theorem dictGet_map {f : Obj → Obj} (hf : ∀ o, (f o).id = o.id)
    (l : List Obj) (k : Nat) : dictGet (l.map f) k = (dictGet l k).map f := by
  induction l with
  | nil => rfl
  | cons a rest ih =>
    simp only [List.map_cons]
    rw [dictGet_cons, dictGet_cons, hf a]
    by_cases h : a.id = k <;> simp [h, ih]

/-! Facts about `matchPred`, `find_matching_object` and the invariant. -/

theorem matchPred_missing {t : ObjectTracker} {bbox : Box} {label : String} {o : Obj}
    (h : matchPred t bbox label o = true) : o.missing = false := by
  simp only [matchPred, Bool.and_eq_true, Bool.not_eq_true'] at h
  exact h.1.1

theorem matchPred_label {t : ObjectTracker} {bbox : Box} {label : String} {o : Obj}
    (h : matchPred t bbox label o = true) : o.label = label := by
  simp only [matchPred, Bool.and_eq_true, beq_iff_eq] at h
  exact h.1.2

theorem find_matching_some {t : ObjectTracker} {bbox : Box} {label : String} {mid : Nat}
    (h : find_matching_object t bbox label = some mid) :
    ∃ o, o ∈ t.tracked_objects ∧ o.id = mid ∧ matchPred t bbox label o = true := by
  unfold find_matching_object at h
  cases hf : t.tracked_objects.find? (matchPred t bbox label) with
  | none => rw [hf] at h; cases h
  | some o =>
    rw [hf] at h
    exact ⟨o, List.mem_of_find?_eq_some hf, by simpa using h, List.find?_some hf⟩

theorem Inv.ids_nodup {t : ObjectTracker} (hI : Inv t) :
    (t.tracked_objects.map Obj.id).Nodup := by
  rw [hI.1]
  exact List.nodup_range' _ _

theorem Inv.fresh {t : ObjectTracker} (hI : Inv t) :
    t.next_object_id ∉ t.tracked_objects.map Obj.id := by
  rw [hI.1]
  intro hm
  have h1 := (List.mem_range'_1.mp hm).2
  have h2 := hI.2
  omega

/-- A retired entry is never the result of `find_matching_object`: the
candidate test requires `not obj_info['missing']`. -/
theorem find_not_retired {t : ObjectTracker} (hI : Inv t) {r : Obj}
    (hr : r ∈ t.tracked_objects) (hm : r.missing = true) (bbox : Box) (label : String) :
    find_matching_object t bbox label ≠ some r.id := by
  intro h
  obtain ⟨o, ho, hoid, hpred⟩ := find_matching_some h
  have h1 : dictGet t.tracked_objects r.id = some r := dictGet_of_mem_nodup hI.ids_nodup hr
  have h2 : dictGet t.tracked_objects o.id = some o := dictGet_of_mem_nodup hI.ids_nodup ho
  rw [hoid, h1] at h2
  cases h2
  rw [matchPred_missing hpred] at hm
  cases hm

/-! Branch equations for `detStep`. -/

theorem detStep_skip {t : ObjectTracker} {m : List Nat} {d : Detection} {ft : ℚ}
    (h : d.label ∉ t.selected_objects) : detStep t m d ft = (t, m, none) := by
  unfold detStep
  rw [if_neg h]

theorem detStep_match {t : ObjectTracker} {m : List Nat} {d : Detection} {ft : ℚ}
    {mid : Nat} (h : d.label ∈ t.selected_objects)
    (hf : find_matching_object t d.bbox d.label = some mid) :
    detStep t m d ft =
      ({ t with tracked_objects := dictModify t.tracked_objects mid (matchMod d ft) },
       mid :: m, some mid) := by
  unfold detStep
  rw [if_pos h, hf]

theorem detStep_new {t : ObjectTracker} {m : List Nat} {d : Detection} {ft : ℚ}
    (h : d.label ∈ t.selected_objects)
    (hf : find_matching_object t d.bbox d.label = none) :
    detStep t m d ft =
      ({ t with
          tracked_objects := dictSet t.tracked_objects t.next_object_id (newObjOf t d ft),
          next_object_id := t.next_object_id + 1 },
       t.next_object_id :: m, some t.next_object_id) := by
  unfold detStep
  rw [if_pos h, hf]

theorem matchMod_id (d : Detection) (ft : ℚ) (o : Obj) : (matchMod d ft o).id = o.id := rfl

/-! Facts about one step of the detection loop. -/

theorem detStep_config (t : ObjectTracker) (m : List Nat) (d : Detection) (ft : ℚ) :
    (detStep t m d ft).1.iou_threshold = t.iou_threshold ∧
    (detStep t m d ft).1.selected_objects = t.selected_objects ∧
    (detStep t m d ft).1.missing_threshold = t.missing_threshold ∧
    (detStep t m d ft).1.first_frame_time = t.first_frame_time ∧
    t.next_object_id ≤ (detStep t m d ft).1.next_object_id := by
  by_cases h : d.label ∈ t.selected_objects
  · cases hf : find_matching_object t d.bbox d.label with
    | none => rw [detStep_new h hf]; exact ⟨rfl, rfl, rfl, rfl, Nat.le_succ _⟩
    | some mid => rw [detStep_match h hf]; exact ⟨rfl, rfl, rfl, rfl, le_rfl⟩
  · rw [detStep_skip h]
    exact ⟨rfl, rfl, rfl, rfl, le_rfl⟩

theorem detStep_inv {t : ObjectTracker} (hI : Inv t) (m : List Nat) (d : Detection) (ft : ℚ) :
    Inv (detStep t m d ft).1 ∧
    (∃ ext, (detStep t m d ft).1.tracked_objects.map Obj.id =
      t.tracked_objects.map Obj.id ++ ext) := by
  by_cases h : d.label ∈ t.selected_objects
  · cases hf : find_matching_object t d.bbox d.label with
    | none =>
      rw [detStep_new h hf]
      have hfr := dictSet_fresh hI.fresh (newObjOf t d ft)
      constructor
      · constructor
        · show (dictSet t.tracked_objects t.next_object_id (newObjOf t d ft)).map Obj.id =
            List.range' 1 (dictSet t.tracked_objects t.next_object_id (newObjOf t d ft)).length
          rw [hfr, List.map_append, List.length_append, List.map_cons, List.map_nil,
            List.length_cons, List.length_nil, hI.1]
          have he : t.tracked_objects.length + (0 + 1) = t.tracked_objects.length + 1 := by
            omega
          rw [he, List.range'_1_concat]
          have he2 : (newObjOf t d ft).id = 1 + t.tracked_objects.length := by
            show t.next_object_id = 1 + t.tracked_objects.length
            rw [hI.2]
            omega
          rw [he2]
        · show t.next_object_id + 1 =
            (dictSet t.tracked_objects t.next_object_id (newObjOf t d ft)).length + 1
          rw [hfr, List.length_append, List.length_cons, List.length_nil, hI.2]
      · refine ⟨[(newObjOf t d ft).id], ?_⟩
        show (dictSet t.tracked_objects t.next_object_id (newObjOf t d ft)).map Obj.id = _
        rw [hfr, List.map_append, List.map_cons, List.map_nil]
    | some mid =>
      rw [detStep_match h hf]
      have hids := dictModify_map_id (matchMod_id d ft) t.tracked_objects mid
      have hlen := dictModify_length t.tracked_objects mid (matchMod d ft)
      constructor
      · constructor
        · show (dictModify t.tracked_objects mid (matchMod d ft)).map Obj.id =
            List.range' 1 (dictModify t.tracked_objects mid (matchMod d ft)).length
          rw [hids, hlen]
          exact hI.1
        · show t.next_object_id =
            (dictModify t.tracked_objects mid (matchMod d ft)).length + 1
          rw [hlen]
          exact hI.2
      · exact ⟨[], by rw [List.append_nil]; exact hids⟩
  · rw [detStep_skip h]
    exact ⟨hI, [], by rw [List.append_nil]⟩

theorem detStep_matched_sub (t : ObjectTracker) (m : List Nat) (d : Detection) (ft : ℚ) :
    ∀ x ∈ m, x ∈ (detStep t m d ft).2.1 := by
  by_cases h : d.label ∈ t.selected_objects
  · cases hf : find_matching_object t d.bbox d.label with
    | none => rw [detStep_new h hf]; exact fun x hx => List.mem_cons_of_mem _ hx
    | some mid => rw [detStep_match h hf]; exact fun x hx => List.mem_cons_of_mem _ hx
  · rw [detStep_skip h]
    exact fun x hx => hx

theorem detStep_matched_char {t : ObjectTracker} (hI : Inv t)
    (m : List Nat) (d : Detection) (ft : ℚ) :
    ∀ x ∈ (detStep t m d ft).2.1, x ∈ m ∨
      (∃ o, dictGet t.tracked_objects x = some o ∧ o.missing = false) ∨
      t.next_object_id ≤ x := by
  by_cases h : d.label ∈ t.selected_objects
  · cases hf : find_matching_object t d.bbox d.label with
    | none =>
      rw [detStep_new h hf]
      intro x hx
      rcases List.mem_cons.mp hx with rfl | hx'
      · exact Or.inr (Or.inr le_rfl)
      · exact Or.inl hx'
    | some mid =>
      rw [detStep_match h hf]
      intro x hx
      rcases List.mem_cons.mp hx with rfl | hx'
      · obtain ⟨o, ho, hoid, hpred⟩ := find_matching_some hf
        exact Or.inr (Or.inl ⟨o, hoid ▸ dictGet_of_mem_nodup hI.ids_nodup ho,
          matchPred_missing hpred⟩)
      · exact Or.inl hx'
  · rw [detStep_skip h]
    exact fun x hx => Or.inl hx

/-- An id in no step output `matched_ids` was not matched, and its table
entry (or absence) is untouched by the step. -/
theorem detStep_unmatched_get {t : ObjectTracker} (hI : Inv t)
    (m : List Nat) (d : Detection) (ft : ℚ) {x : Nat}
    (hx : x ∉ (detStep t m d ft).2.1) :
    dictGet (detStep t m d ft).1.tracked_objects x = dictGet t.tracked_objects x ∧
    x ∉ m := by
  by_cases h : d.label ∈ t.selected_objects
  · cases hf : find_matching_object t d.bbox d.label with
    | none =>
      rw [detStep_new h hf] at hx ⊢
      have hxne : x ≠ t.next_object_id :=
        fun he => hx (he ▸ List.mem_cons_self _ _)
      refine ⟨?_, fun hm => hx (List.mem_cons_of_mem _ hm)⟩
      show dictGet (dictSet t.tracked_objects t.next_object_id (newObjOf t d ft)) x = _
      rw [dictSet_fresh hI.fresh, dictGet_append]
      have : dictGet [newObjOf t d ft] x = none := by
        rw [show ([newObjOf t d ft] : List Obj) = newObjOf t d ft :: [] from rfl,
          dictGet_cons, if_neg (fun he : (newObjOf t d ft).id = x => hxne (he.symm))]
        rfl
      rw [this, Option.or_none]
    | some mid =>
      rw [detStep_match h hf] at hx ⊢
      have hxne : x ≠ mid := fun he => hx (he ▸ List.mem_cons_self _ _)
      refine ⟨?_, fun hm => hx (List.mem_cons_of_mem _ hm)⟩
      show dictGet (dictModify t.tracked_objects mid (matchMod d ft)) x = _
      exact dictGet_dictModify_ne (matchMod_id d ft) t.tracked_objects hxne
  · rw [detStep_skip h] at hx ⊢
    exact ⟨rfl, hx⟩

/-- After one step, every table entry either descends from an entry of the
same id (id, label, `first_seen` and `missing` unchanged) or is the object
this step created (`first_seen = ft`, active, id at least the old next id). -/
theorem detStep_entry_char {t : ObjectTracker} (hI : Inv t)
    (m : List Nat) (d : Detection) (ft : ℚ) {x : Nat} {o' : Obj}
    (hget : dictGet (detStep t m d ft).1.tracked_objects x = some o') :
    (∃ o, dictGet t.tracked_objects x = some o ∧ o'.id = o.id ∧ o'.label = o.label ∧
      o'.first_seen = o.first_seen ∧ o'.missing = o.missing) ∨
    (dictGet t.tracked_objects x = none ∧ t.next_object_id ≤ x ∧
      o'.first_seen = ft ∧ o'.missing = false) := by
  by_cases h : d.label ∈ t.selected_objects
  · cases hf : find_matching_object t d.bbox d.label with
    | none =>
      rw [detStep_new h hf] at hget
      replace hget :
          dictGet (dictSet t.tracked_objects t.next_object_id (newObjOf t d ft)) x =
            some o' := hget
      rw [dictSet_fresh hI.fresh, dictGet_append] at hget
      cases hg : dictGet t.tracked_objects x with
      | some o =>
        rw [hg] at hget
        simp only [Option.or_some, Option.some.injEq] at hget
        exact Or.inl ⟨o, rfl, by rw [← hget], by rw [← hget], by rw [← hget], by rw [← hget]⟩
      | none =>
        rw [hg] at hget
        simp only [Option.none_or] at hget
        rw [show ([newObjOf t d ft] : List Obj) = newObjOf t d ft :: [] from rfl,
          dictGet_cons] at hget
        by_cases hxe : (newObjOf t d ft).id = x
        · rw [if_pos hxe] at hget
          cases hget
          exact Or.inr ⟨rfl, le_of_eq hxe, rfl, rfl⟩
        · rw [if_neg hxe] at hget
          cases hget
    | some mid =>
      rw [detStep_match h hf] at hget
      replace hget :
          dictGet (dictModify t.tracked_objects mid (matchMod d ft)) x = some o' := hget
      by_cases hxm : x = mid
      · subst hxm
        rw [dictGet_dictModify_self (matchMod_id d ft)] at hget
        cases hg : dictGet t.tracked_objects x with
        | none => rw [hg] at hget; cases hget
        | some o =>
          rw [hg] at hget
          simp only [Option.map_some', Option.some.injEq] at hget
          exact Or.inl ⟨o, rfl, by rw [← hget]; rfl, by rw [← hget]; rfl,
            by rw [← hget]; rfl, by rw [← hget]; rfl⟩
      · rw [dictGet_dictModify_ne (matchMod_id d ft) t.tracked_objects hxm] at hget
        exact Or.inl ⟨o', hget, rfl, rfl, rfl, rfl⟩
  · rw [detStep_skip h] at hget
    exact Or.inl ⟨o', hget, rfl, rfl, rfl, rfl⟩

/-- A step never removes a table entry. -/
theorem detStep_absent {t : ObjectTracker} (hI : Inv t)
    (m : List Nat) (d : Detection) (ft : ℚ) {x : Nat}
    (hget : dictGet (detStep t m d ft).1.tracked_objects x = none) :
    dictGet t.tracked_objects x = none := by
  by_cases h : d.label ∈ t.selected_objects
  · cases hf : find_matching_object t d.bbox d.label with
    | none =>
      rw [detStep_new h hf] at hget
      replace hget :
          dictGet (dictSet t.tracked_objects t.next_object_id (newObjOf t d ft)) x =
            none := hget
      rw [dictSet_fresh hI.fresh, dictGet_append] at hget
      cases hg : dictGet t.tracked_objects x with
      | none => rfl
      | some o => rw [hg, Option.or_some] at hget; cases hget
    | some mid =>
      rw [detStep_match h hf] at hget
      replace hget :
          dictGet (dictModify t.tracked_objects mid (matchMod d ft)) x = none := hget
      by_cases hxm : x = mid
      · subst hxm
        rw [dictGet_dictModify_self (matchMod_id d ft)] at hget
        cases hg : dictGet t.tracked_objects x with
        | none => rfl
        | some o => rw [hg, Option.map_some'] at hget; cases hget
      · rw [dictGet_dictModify_ne (matchMod_id d ft) t.tracked_objects hxm] at hget
        exact hget
  · rw [detStep_skip h] at hget
    exact hget

/-! The detection loop as a whole: `detStep` facts folded over the list. -/

theorem detPass_cons_fst (t : ObjectTracker) (m : List Nat) (d : Detection)
    (rest : List Detection) (ft : ℚ) :
    (detPass t m (d :: rest) ft).1 =
      (detPass (detStep t m d ft).1 (detStep t m d ft).2.1 rest ft).1 := rfl

theorem detPass_cons_matched (t : ObjectTracker) (m : List Nat) (d : Detection)
    (rest : List Detection) (ft : ℚ) :
    (detPass t m (d :: rest) ft).2.1 =
      (detPass (detStep t m d ft).1 (detStep t m d ft).2.1 rest ft).2.1 := rfl

theorem detPass_cons_trace (t : ObjectTracker) (m : List Nat) (d : Detection)
    (rest : List Detection) (ft : ℚ) :
    (detPass t m (d :: rest) ft).2.2 =
      (detStep t m d ft).2.2 ::
        (detPass (detStep t m d ft).1 (detStep t m d ft).2.1 rest ft).2.2 := rfl

/-- Combined facts about the detection loop, by induction over the
detection list: the invariant is preserved, configuration fields are
unchanged, ids only get appended, the matched set only grows and contains
only previously-active or newly-created ids, entries not in the matched
set are untouched, and every final entry either descends from an entry of
the same id (id, label, `first_seen`, `missing` unchanged) or was created
in this call. -/
theorem detPass_spec (ds : List Detection) :
    ∀ (t : ObjectTracker) (m : List Nat) (ft : ℚ), Inv t →
    Inv (detPass t m ds ft).1 ∧
    (detPass t m ds ft).1.iou_threshold = t.iou_threshold ∧
    (detPass t m ds ft).1.selected_objects = t.selected_objects ∧
    (detPass t m ds ft).1.missing_threshold = t.missing_threshold ∧
    (detPass t m ds ft).1.first_frame_time = t.first_frame_time ∧
    t.next_object_id ≤ (detPass t m ds ft).1.next_object_id ∧
    (∃ ext, (detPass t m ds ft).1.tracked_objects.map Obj.id =
      t.tracked_objects.map Obj.id ++ ext) ∧
    (∀ x ∈ m, x ∈ (detPass t m ds ft).2.1) ∧
    (∀ x ∈ (detPass t m ds ft).2.1, x ∈ m ∨
      (∃ o, dictGet t.tracked_objects x = some o ∧ o.missing = false) ∨
      t.next_object_id ≤ x) ∧
    (∀ x, x ∉ (detPass t m ds ft).2.1 →
      dictGet (detPass t m ds ft).1.tracked_objects x = dictGet t.tracked_objects x ∧
      x ∉ m) ∧
    (∀ x o', dictGet (detPass t m ds ft).1.tracked_objects x = some o' →
      (∃ o, dictGet t.tracked_objects x = some o ∧ o'.id = o.id ∧ o'.label = o.label ∧
        o'.first_seen = o.first_seen ∧ o'.missing = o.missing) ∨
      (dictGet t.tracked_objects x = none ∧ t.next_object_id ≤ x ∧
        o'.first_seen = ft ∧ o'.missing = false)) := by
  induction ds with
  | nil =>
    intro t m ft hI
    refine ⟨hI, rfl, rfl, rfl, rfl, le_rfl, ⟨[], (List.append_nil _).symm⟩,
      fun x hx => hx, fun x hx => Or.inl hx, fun x hx => ⟨rfl, hx⟩,
      fun x o' hget => Or.inl ⟨o', hget, rfl, rfl, rfl, rfl⟩⟩
  | cons d rest ih =>
    intro t m ft hI
    have hstepI := detStep_inv hI m d ft
    have hstepC := detStep_config t m d ft
    obtain ⟨ihI, ihiou, ihsel, ihmth, ihfft, ihnext, ⟨ext2, ihids⟩, ihsub, ihchar,
      ihun, ihentry⟩ := ih (detStep t m d ft).1 (detStep t m d ft).2.1 ft hstepI.1
    rw [detPass_cons_fst, detPass_cons_matched]
    refine ⟨ihI, ihiou.trans hstepC.1, ihsel.trans hstepC.2.1,
      ihmth.trans hstepC.2.2.1, ihfft.trans hstepC.2.2.2.1,
      le_trans hstepC.2.2.2.2 ihnext, ?_, ?_, ?_, ?_, ?_⟩
    · obtain ⟨ext1, hids1⟩ := hstepI.2
      exact ⟨ext1 ++ ext2, by rw [ihids, hids1, List.append_assoc]⟩
    · exact fun x hx => ihsub x (detStep_matched_sub t m d ft x hx)
    · intro x hx
      rcases ihchar x hx with hx' | ⟨o, ho, hom⟩ | hnext
      · exact detStep_matched_char hI m d ft x hx'
      · rcases detStep_entry_char hI m d ft ho with
          ⟨o0, ho0, _, _, _, hm0⟩ | ⟨hnone, hle, _, _⟩
        · exact Or.inr (Or.inl ⟨o0, ho0, by rw [← hm0, hom]⟩)
        · exact Or.inr (Or.inr hle)
      · exact Or.inr (Or.inr (le_trans hstepC.2.2.2.2 hnext))
    · intro x hx
      obtain ⟨hg1, hx1⟩ := ihun x hx
      obtain ⟨hg2, hx2⟩ := detStep_unmatched_get hI m d ft hx1
      exact ⟨hg1.trans hg2, hx2⟩
    · intro x o' hget
      rcases ihentry x o' hget with
        ⟨o1, ho1, hid, hlab, hfs, hms⟩ | ⟨hnone, hle, hfs, hms⟩
      · rcases detStep_entry_char hI m d ft ho1 with
          ⟨o0, ho0, hid0, hlab0, hfs0, hms0⟩ | ⟨hnone0, hle0, hfs0, hms0⟩
        · exact Or.inl ⟨o0, ho0, hid.trans hid0, hlab.trans hlab0,
            hfs.trans hfs0, hms.trans hms0⟩
        · exact Or.inr ⟨hnone0, hle0, hfs.trans hfs0, hms.trans hms0⟩
      · exact Or.inr ⟨detStep_absent hI m d ft hnone,
          le_trans hstepC.2.2.2.2 hle, hfs, hms⟩

/-! Facts about a whole `update` call. -/

theorem missUpdate_id (th : Nat) (m : List Nat) (o : Obj) :
    (missUpdate th m o).id = o.id := by
  unfold missUpdate
  split
  · split <;> rfl
  · split <;> rfl

theorem missUpdate_label (th : Nat) (m : List Nat) (o : Obj) :
    (missUpdate th m o).label = o.label := by
  unfold missUpdate
  split
  · split <;> rfl
  · split <;> rfl

theorem missUpdate_first_seen (th : Nat) (m : List Nat) (o : Obj) :
    (missUpdate th m o).first_seen = o.first_seen := by
  unfold missUpdate
  split
  · split <;> rfl
  · split <;> rfl

/-- A retired object is left untouched by the end-of-frame missing pass
as long as it was not matched. -/
theorem missUpdate_retired {th : Nat} {m : List Nat} {o : Obj}
    (hmiss : o.missing = true) (hm : o.id ∉ m) : missUpdate th m o = o := by
  unfold missUpdate
  rw [if_neg (fun hc => by rw [hmiss] at hc; exact Bool.true_eq_false.mp hc.2),
    if_neg (fun hc => hm hc.1)]

/-- An unmatched active object gets its streak incremented and retires
exactly when the incremented streak reaches the threshold. -/
theorem missUpdate_unmatched {th : Nat} {m : List Nat} {o : Obj}
    (hmiss : o.missing = false) (hm : o.id ∉ m) :
    missUpdate th m o =
      (if th ≤ o.missing_frames + 1 then
        { o with missing_frames := o.missing_frames + 1, missing := true }
      else { o with missing_frames := o.missing_frames + 1 }) := by
  unfold missUpdate
  rw [if_pos ⟨hm, hmiss⟩]

theorem withEpoch_inv {t : ObjectTracker} (hI : Inv t) (ft : ℚ) :
    Inv (withEpoch t ft) := hI

theorem update_objects (t : ObjectTracker) (ds : List Detection) (ft : ℚ) :
    (update t ds ft).tracked_objects =
      (detPass (withEpoch t ft) [] ds ft).1.tracked_objects.map
        (missUpdate (detPass (withEpoch t ft) [] ds ft).1.missing_threshold
          (detPass (withEpoch t ft) [] ds ft).2.1) := rfl

theorem update_next (t : ObjectTracker) (ds : List Detection) (ft : ℚ) :
    (update t ds ft).next_object_id =
      (detPass (withEpoch t ft) [] ds ft).1.next_object_id := rfl

theorem updateFull_matched (t : ObjectTracker) (ds : List Detection) (ft : ℚ) :
    (updateFull t ds ft).2.1 = (detPass (withEpoch t ft) [] ds ft).2.1 := rfl

theorem updateFull_fst (t : ObjectTracker) (ds : List Detection) (ft : ℚ) :
    (updateFull t ds ft).1 = update t ds ft := rfl

/-- `update` preserves the configuration fields and sets the epoch on the
first call only. -/
theorem update_config (t : ObjectTracker) (ds : List Detection) (ft : ℚ) (hI : Inv t) :
    (update t ds ft).iou_threshold = t.iou_threshold ∧
    (update t ds ft).selected_objects = t.selected_objects ∧
    (update t ds ft).missing_threshold = t.missing_threshold ∧
    (update t ds ft).first_frame_time =
      (match t.first_frame_time with
       | none => some ft
       | some e => some e) := by
  have h := detPass_spec ds (withEpoch t ft) [] ft (withEpoch_inv hI ft)
  exact ⟨h.2.1, h.2.2.1, h.2.2.2.1, h.2.2.2.2.1⟩

theorem update_inv {t : ObjectTracker} (hI : Inv t) (ds : List Detection) (ft : ℚ) :
    Inv (update t ds ft) := by
  have h := detPass_spec ds (withEpoch t ft) [] ft (withEpoch_inv hI ft)
  constructor
  · rw [update_objects, List.map_map]
    have hcomp : (Obj.id ∘ missUpdate (detPass (withEpoch t ft) [] ds ft).1.missing_threshold
        (detPass (withEpoch t ft) [] ds ft).2.1) = Obj.id := by
      funext o
      exact missUpdate_id _ _ o
    rw [hcomp, List.length_map]
    exact h.1.1
  · rw [update_objects, update_next, List.length_map]
    exact h.1.2

/-- The ids of reachable tracker states are `1, ..., n` in creation order,
with `next_object_id = n + 1`. -/
theorem reachable_inv {t : ObjectTracker} (hR : Reachable t) : Inv t := by
  induction hR with
  | init thr sel mth => exact ⟨rfl, rfl⟩
  | step ds ft _ ih => exact update_inv ih ds ft

/-- Objects matched in an `update` call were active before the call or
were created by it. -/
theorem update_matched_char {t : ObjectTracker} (hI : Inv t)
    (ds : List Detection) (ft : ℚ) :
    ∀ x ∈ (updateFull t ds ft).2.1,
      (∃ o, dictGet t.tracked_objects x = some o ∧ o.missing = false) ∨
      t.next_object_id ≤ x := by
  intro x hx
  rw [updateFull_matched] at hx
  have h := detPass_spec ds (withEpoch t ft) [] ft (withEpoch_inv hI ft)
  rcases h.2.2.2.2.2.2.2.2.1 x hx with hfalse | hrest
  · cases hfalse
  · exact hrest

/-- The table entry of an id not matched during an `update` call is the
old entry passed through the end-of-frame missing pass. -/
theorem update_unmatched_get {t : ObjectTracker} (hI : Inv t)
    (ds : List Detection) (ft : ℚ) {x : Nat}
    (hx : x ∉ (updateFull t ds ft).2.1) :
    dictGet (update t ds ft).tracked_objects x =
      (dictGet t.tracked_objects x).map
        (missUpdate t.missing_threshold (updateFull t ds ft).2.1) := by
  rw [updateFull_matched] at hx ⊢
  have h := detPass_spec ds (withEpoch t ft) [] ft (withEpoch_inv hI ft)
  rw [update_objects, dictGet_map (missUpdate_id _ _),
    (h.2.2.2.2.2.2.2.2.2.1 x hx).1, h.2.2.2.1]
  rfl

/-- Every entry after an `update` call either descends from an entry of
the same id (id, label, `first_seen` unchanged) or was created by the call
at `first_seen = ft`. -/
theorem update_entry_char {t : ObjectTracker} (hI : Inv t)
    (ds : List Detection) (ft : ℚ) {x : Nat} {o' : Obj}
    (hget : dictGet (update t ds ft).tracked_objects x = some o') :
    (∃ o, dictGet t.tracked_objects x = some o ∧ o'.id = o.id ∧ o'.label = o.label ∧
      o'.first_seen = o.first_seen) ∨
    (dictGet t.tracked_objects x = none ∧ t.next_object_id ≤ x ∧
      o'.first_seen = ft) := by
  have h := detPass_spec ds (withEpoch t ft) [] ft (withEpoch_inv hI ft)
  rw [update_objects, dictGet_map (missUpdate_id _ _)] at hget
  cases hg : dictGet (detPass (withEpoch t ft) [] ds ft).1.tracked_objects x with
  | none => rw [hg] at hget; cases hget
  | some o1 =>
    rw [hg, Option.map_some', Option.some.injEq] at hget
    rcases h.2.2.2.2.2.2.2.2.2.2 x o1 hg with
      ⟨o, ho, hid, hlab, hfs, _⟩ | ⟨hnone, hle, hfs, _⟩
    · exact Or.inl ⟨o, ho, by rw [← hget, missUpdate_id, hid],
        by rw [← hget, missUpdate_label, hlab],
        by rw [← hget, missUpdate_first_seen, hfs]⟩
    · exact Or.inr ⟨hnone, hle, by rw [← hget, missUpdate_first_seen, hfs]⟩

/-- An id present in the table stays below `next_object_id`. -/
theorem Inv.id_lt_next {t : ObjectTracker} (hI : Inv t) {o : Obj}
    (ho : o ∈ t.tracked_objects) : o.id < t.next_object_id := by
  have hmem : o.id ∈ t.tracked_objects.map Obj.id := List.mem_map_of_mem Obj.id ho
  rw [hI.1] at hmem
  have h1 := (List.mem_range'_1.mp hmem).2
  have h2 := hI.2
  omega

/-- Core of claim C10: a retired object's table entry is bitwise unchanged
by any further `update` call. -/
theorem update_retired_frozen {t : ObjectTracker} (hI : Inv t) {r : Obj}
    (hr : r ∈ t.tracked_objects) (hmiss : r.missing = true)
    (ds : List Detection) (ft : ℚ) :
    dictGet (update t ds ft).tracked_objects r.id = some r := by
  have hget : dictGet t.tracked_objects r.id = some r :=
    dictGet_of_mem_nodup hI.ids_nodup hr
  have hnm : r.id ∉ (updateFull t ds ft).2.1 := by
    intro hin
    rcases update_matched_char hI ds ft r.id hin with ⟨o, ho, hom⟩ | hle
    · rw [hget] at ho
      cases ho
      rw [hom] at hmiss
      cases hmiss
    · exact absurd hle (not_le.mpr (hI.id_lt_next hr))
  rw [update_unmatched_get hI ds ft hnm, hget, Option.map_some',
    missUpdate_retired hmiss hnm]

theorem detPass_singleton (t : ObjectTracker) (m : List Nat) (d : Detection) (ft : ℚ) :
    detPass t m [d] ft =
      ((detStep t m d ft).1, (detStep t m d ft).2.1, [(detStep t m d ft).2.2]) := rfl

theorem dictGet_eq_none_of_not_mem {l : List Obj} {k : Nat}
    (h : k ∉ l.map Obj.id) : dictGet l k = none :=
  List.find?_eq_none.mpr (fun x hx hbeq =>
    h (by rw [← (by simpa using hbeq : x.id = k)]; exact List.mem_map_of_mem _ hx))

/-- The missing pass leaves a matched object with a zero counter alone. -/
theorem missUpdate_matched_zero {th : Nat} {m : List Nat} {o : Obj}
    (hm : o.id ∈ m) (h0 : o.missing_frames = 0) : missUpdate th m o = o := by
  unfold missUpdate
  rw [if_neg (fun hc => hc.1 hm),
    if_neg (fun hc => by rw [h0] at hc; exact absurd hc.2 (lt_irrefl 0))]

/-- A single allowed detection matching nothing creates a fresh object
under the next id, carried unchanged through the missing pass. -/
theorem update_creates {t : ObjectTracker} (hI : Inv t) {d : Detection} {ft : ℚ}
    (hsel : d.label ∈ t.selected_objects)
    (hnomatch : find_matching_object t d.bbox d.label = none) :
    dictGet (update t [d] ft).tracked_objects t.next_object_id =
      some { id := t.next_object_id, label := d.label, bbox := d.bbox,
             first_seen := ft, last_seen := ft, total_time := 0,
             missing_frames := 0, missing := false } := by
  have hstep : detStep (withEpoch t ft) [] d ft =
      ({ withEpoch t ft with
          tracked_objects := dictSet (withEpoch t ft).tracked_objects
            (withEpoch t ft).next_object_id (newObjOf (withEpoch t ft) d ft),
          next_object_id := (withEpoch t ft).next_object_id + 1 },
       [(withEpoch t ft).next_object_id], some (withEpoch t ft).next_object_id) :=
    detStep_new hsel hnomatch
  rw [update_objects, detPass_singleton, hstep]
  show dictGet ((dictSet t.tracked_objects t.next_object_id
      (newObjOf (withEpoch t ft) d ft)).map
        (missUpdate t.missing_threshold [t.next_object_id])) t.next_object_id = _
  rw [dictGet_map (missUpdate_id _ _), dictSet_fresh hI.fresh, dictGet_append,
    dictGet_eq_none_of_not_mem hI.fresh, Option.none_or,
    show (([newObjOf (withEpoch t ft) d ft]) : List Obj) =
      newObjOf (withEpoch t ft) d ft :: [] from rfl, dictGet_cons,
    if_pos (show (newObjOf (withEpoch t ft) d ft).id = t.next_object_id from rfl),
    Option.map_some']
  have hv : missUpdate t.missing_threshold [t.next_object_id]
      (newObjOf (withEpoch t ft) d ft) = newObjOf (withEpoch t ft) d ft :=
    missUpdate_matched_zero (show (newObjOf (withEpoch t ft) d ft).id ∈
      [t.next_object_id] from List.mem_singleton.mpr rfl) rfl
  rw [hv]
  rfl

/-! Facts about the IoU computation. -/

/-- When the intersection is empty in either axis, the IoU is 0. -/
theorem iou_eq_zero_of_inter {A B : Box}
    (h : min A.x2 B.x2 ≤ max A.x1 B.x1 ∨ min A.y2 B.y2 ≤ max A.y1 B.y1) :
    iou A B = 0 := by
  simp only [iou]
  have hz : max (min A.x2 B.x2 - max A.x1 B.x1) 0 *
      max (min A.y2 B.y2 - max A.y1 B.y1) 0 = 0 := by
    rcases h with h | h
    · rw [max_eq_right (sub_nonpos.mpr h), zero_mul]
    · rw [max_eq_right (sub_nonpos.mpr h), mul_zero]
  rw [hz]
  split
  · exact zero_div _
  · rfl

theorem iou_self {A : Box} (hw : 0 < A.x2 - A.x1) (hh : 0 < A.y2 - A.y1) :
    iou A A = 1 := by
  simp only [iou, max_self, min_self]
  have harea : 0 < (A.x2 - A.x1) * (A.y2 - A.y1) := mul_pos hw hh
  rw [max_eq_left hw.le, max_eq_left hh.le]
  have hu : (A.x2 - A.x1) * (A.y2 - A.y1) + (A.x2 - A.x1) * (A.y2 - A.y1) -
      (A.x2 - A.x1) * (A.y2 - A.y1) = (A.x2 - A.x1) * (A.y2 - A.y1) := by
    ring
  rw [hu, if_pos harea, div_self harea.ne']

theorem iou_comm (A B : Box) : iou A B = iou B A := by
  simp only [iou]
  rw [max_comm A.x1 B.x1, max_comm A.y1 B.y1, min_comm A.x2 B.x2, min_comm A.y2 B.y2,
    add_comm ((A.x2 - A.x1) * (A.y2 - A.y1)) ((B.x2 - B.x1) * (B.y2 - B.y1))]

theorem iou_zero_area {A B : Box} (h : boxArea A = 0 ∨ boxArea B = 0) :
    iou A B = 0 := by
  apply iou_eq_zero_of_inter
  rcases h with h | h <;> rcases mul_eq_zero.mp h with h0 | h0
  · left
    have hx : A.x2 = A.x1 := by linarith [sub_eq_zero.mp h0]
    calc min A.x2 B.x2 ≤ A.x2 := min_le_left _ _
      _ = A.x1 := hx
      _ ≤ max A.x1 B.x1 := le_max_left _ _
  · right
    have hy : A.y2 = A.y1 := by linarith [sub_eq_zero.mp h0]
    calc min A.y2 B.y2 ≤ A.y2 := min_le_left _ _
      _ = A.y1 := hy
      _ ≤ max A.y1 B.y1 := le_max_left _ _
  · left
    have hx : B.x2 = B.x1 := by linarith [sub_eq_zero.mp h0]
    calc min A.x2 B.x2 ≤ B.x2 := min_le_right _ _
      _ = B.x1 := hx
      _ ≤ max A.x1 B.x1 := le_max_right _ _
  · right
    have hy : B.y2 = B.y1 := by linarith [sub_eq_zero.mp h0]
    calc min A.y2 B.y2 ≤ B.y2 := min_le_right _ _
      _ = B.y1 := hy
      _ ≤ max A.y1 B.y1 := le_max_right _ _

/-- Claim C7: the IoU function of `ObjectTracker._iou` satisfies
`IoU(A, A) = 1` for every box with positive width and height,
`IoU(A, B) = 0` for disjoint boxes, symmetry, and `IoU(A, B) = 0`
whenever either box has zero area. -/
theorem claim_C7 :
    (∀ A : Box, 0 < A.x2 - A.x1 → 0 < A.y2 - A.y1 → iou A A = 1) ∧
    (∀ A B : Box, BoxDisjoint A B → iou A B = 0) ∧
    (∀ A B : Box, iou A B = iou B A) ∧
    (∀ A B : Box, boxArea A = 0 ∨ boxArea B = 0 → iou A B = 0) := by
  refine ⟨fun A hw hh => iou_self hw hh, fun A B hd => ?_, iou_comm,
    fun A B h => iou_zero_area h⟩
  apply iou_eq_zero_of_inter
  rcases hd with h | h | h | h
  · exact Or.inl (le_trans (min_le_left _ _) (le_trans h (le_max_right _ _)))
  · exact Or.inl (le_trans (min_le_right _ _) (le_trans h (le_max_left _ _)))
  · exact Or.inr (le_trans (min_le_left _ _) (le_trans h (le_max_right _ _)))
  · exact Or.inr (le_trans (min_le_right _ _) (le_trans h (le_max_left _ _)))

/-- Witness for C7 at concrete boxes. -/
theorem claim_C7_witness :
    iou ⟨0, 0, 2, 3⟩ ⟨0, 0, 2, 3⟩ = 1 ∧
    iou ⟨0, 0, 1, 1⟩ ⟨5, 0, 6, 1⟩ = 0 ∧
    iou ⟨0, 0, 2, 3⟩ ⟨1, 1, 4, 4⟩ = iou ⟨1, 1, 4, 4⟩ ⟨0, 0, 2, 3⟩ ∧
    iou ⟨2, 0, 2, 5⟩ ⟨0, 0, 1, 1⟩ = 0 :=
  ⟨claim_C7.1 ⟨0, 0, 2, 3⟩ (by norm_num) (by norm_num),
   claim_C7.2.1 ⟨0, 0, 1, 1⟩ ⟨5, 0, 6, 1⟩ (Or.inl (by norm_num [BoxDisjoint])),
   claim_C7.2.2.1 ⟨0, 0, 2, 3⟩ ⟨1, 1, 4, 4⟩,
   claim_C7.2.2.2 ⟨2, 0, 2, 5⟩ ⟨0, 0, 1, 1⟩ (Or.inl (by norm_num [boxArea]))⟩

/-- Claim C4: when two active same-label objects both exceed the IoU
threshold against a detection, the matcher returns the one enumerated
earlier in the table (creation order), even when the later candidate has
strictly higher IoU: first-match, not best-match. -/
theorem claim_C4 (t : ObjectTracker) (bbox : Box) (label : String)
    (l1 l2 l3 : List Obj) (o1 o2 : Obj)
    (hsplit : t.tracked_objects = l1 ++ o1 :: l2 ++ o2 :: l3)
    (hfail : ∀ x ∈ l1, matchPred t bbox label x = false)
    (h1 : o1.missing = false) (h1lab : o1.label = label)
    (h1iou : iou bbox o1.bbox > t.iou_threshold)
    (h2 : o2.missing = false) (h2lab : o2.label = label)
    (h2iou : iou bbox o2.bbox > t.iou_threshold)
    (hbetter : iou bbox o1.bbox < iou bbox o2.bbox) :
    find_matching_object t bbox label = some o1.id := by
  unfold find_matching_object
  have hnone : l1.find? (matchPred t bbox label) = none :=
    List.find?_eq_none.mpr (fun x hx => by rw [hfail x hx]; exact Bool.false_ne_true)
  have hpos : matchPred t bbox label o1 = true := by
    simp [matchPred, h1, h1lab, h1iou]
  rw [hsplit, List.find?_append, List.find?_append, hnone, Option.none_or,
    List.find?_cons_of_pos _ hpos]
  rfl

/-- Witness for C4: the query box has IoU 1/2 with object 1 and IoU 1 with
object 2, both above the threshold 1/4, and object 1 is returned. -/
theorem claim_C4_witness :
    find_matching_object
      { tracked_objects :=
          [{ id := 1, label := "car", bbox := ⟨0, 0, 4, 8⟩, first_seen := 0,
             last_seen := 0, total_time := 0, missing_frames := 0, missing := false },
           { id := 2, label := "car", bbox := ⟨0, 0, 4, 4⟩, first_seen := 0,
             last_seen := 0, total_time := 0, missing_frames := 0, missing := false }]
        next_object_id := 3
        iou_threshold := 1/4
        first_frame_time := some 0
        selected_objects := ["car"]
        missing_threshold := 20 } ⟨0, 0, 4, 4⟩ "car" = some 1 :=
  claim_C4 _ ⟨0, 0, 4, 4⟩ "car" [] [] []
    { id := 1, label := "car", bbox := ⟨0, 0, 4, 8⟩, first_seen := 0,
      last_seen := 0, total_time := 0, missing_frames := 0, missing := false }
    { id := 2, label := "car", bbox := ⟨0, 0, 4, 4⟩, first_seen := 0,
      last_seen := 0, total_time := 0, missing_frames := 0, missing := false }
    rfl (fun x hx => absurd hx (List.not_mem_nil x)) rfl rfl
    (by norm_num [iou, max_def, min_def]) rfl rfl
    (by norm_num [iou, max_def, min_def])
    (by norm_num [iou, max_def, min_def])

/-- Claim C5: in a reachable tracker state, a retired object is never the
result of the matcher for any detection; an allowed detection with the
retired object's exact bbox and label that matches no active object
creates a brand-new object under the fresh id `next_object_id` (an id not
present in the table), and the retired object's record stays unchanged. -/
theorem claim_C5 (t : ObjectTracker) (r : Obj) (bbox : Box) (label : String)
    (d : Detection) (ft : ℚ)
    (hR : Reachable t) (hr : r ∈ t.tracked_objects) (hmiss : r.missing = true)
    (hbbox : d.bbox = r.bbox) (hlab : d.label = r.label)
    (hsel : d.label ∈ t.selected_objects)
    (hnomatch : find_matching_object t d.bbox d.label = none) :
    find_matching_object t bbox label ≠ some r.id ∧
    t.next_object_id ∉ t.tracked_objects.map Obj.id ∧
    r.id ≠ t.next_object_id ∧
    dictGet (update t [d] ft).tracked_objects t.next_object_id =
      some { id := t.next_object_id, label := d.label, bbox := d.bbox,
             first_seen := ft, last_seen := ft, total_time := 0,
             missing_frames := 0, missing := false } ∧
    dictGet (update t [d] ft).tracked_objects r.id = some r := by
  have hI := reachable_inv hR
  exact ⟨find_not_retired hI hr hmiss bbox label, hI.fresh,
    ne_of_lt (hI.id_lt_next hr), update_creates hI hsel hnomatch,
    update_retired_frozen hI hr hmiss [d] ft⟩

/-- Witness for C5: with `missing_threshold = 1`, a "car" seen at frame 0
and absent at frame 1 is retired; at frame 2 the identical detection does
not match it and creates a fresh object under the next id. -/
theorem claim_C5_witness :
    find_matching_object
        (update (update (mkTracker 0 ["car"] 1) [⟨⟨0, 0, 1, 1⟩, "car"⟩] 0) [] 1)
        ⟨0, 0, 1, 1⟩ "car" ≠
      some (Obj.id { id := 1, label := "car", bbox := ⟨0, 0, 1, 1⟩,
                     first_seen := 0, last_seen := 0, total_time := 0,
                     missing_frames := 1, missing := true }) ∧
    (update (update (mkTracker 0 ["car"] 1) [⟨⟨0, 0, 1, 1⟩, "car"⟩] 0) [] 1).next_object_id ∉
      (update (update (mkTracker 0 ["car"] 1) [⟨⟨0, 0, 1, 1⟩, "car"⟩] 0)
        [] 1).tracked_objects.map Obj.id ∧
    Obj.id { id := 1, label := "car", bbox := ⟨0, 0, 1, 1⟩,
             first_seen := 0, last_seen := 0, total_time := 0,
             missing_frames := 1, missing := true } ≠
      (update (update (mkTracker 0 ["car"] 1) [⟨⟨0, 0, 1, 1⟩, "car"⟩] 0) [] 1).next_object_id ∧
    dictGet (update (update (update (mkTracker 0 ["car"] 1) [⟨⟨0, 0, 1, 1⟩, "car"⟩] 0) [] 1)
        [⟨⟨0, 0, 1, 1⟩, "car"⟩] 2).tracked_objects
      (update (update (mkTracker 0 ["car"] 1) [⟨⟨0, 0, 1, 1⟩, "car"⟩] 0) [] 1).next_object_id =
      some { id := (update (update (mkTracker 0 ["car"] 1)
                     [⟨⟨0, 0, 1, 1⟩, "car"⟩] 0) [] 1).next_object_id,
             label := "car", bbox := ⟨0, 0, 1, 1⟩, first_seen := 2, last_seen := 2,
             total_time := 0, missing_frames := 0, missing := false } ∧
    dictGet (update (update (update (mkTracker 0 ["car"] 1) [⟨⟨0, 0, 1, 1⟩, "car"⟩] 0) [] 1)
        [⟨⟨0, 0, 1, 1⟩, "car"⟩] 2).tracked_objects
      (Obj.id { id := 1, label := "car", bbox := ⟨0, 0, 1, 1⟩,
                first_seen := 0, last_seen := 0, total_time := 0,
                missing_frames := 1, missing := true }) =
      some { id := 1, label := "car", bbox := ⟨0, 0, 1, 1⟩,
             first_seen := 0, last_seen := 0, total_time := 0,
             missing_frames := 1, missing := true } :=
  claim_C5
    (update (update (mkTracker 0 ["car"] 1) [⟨⟨0, 0, 1, 1⟩, "car"⟩] 0) [] 1)
    { id := 1, label := "car", bbox := ⟨0, 0, 1, 1⟩,
      first_seen := 0, last_seen := 0, total_time := 0,
      missing_frames := 1, missing := true }
    ⟨0, 0, 1, 1⟩ "car" ⟨⟨0, 0, 1, 1⟩, "car"⟩ 2
    (Reachable.step [] 1 (Reachable.step [⟨⟨0, 0, 1, 1⟩, "car"⟩] 0
      (Reachable.init 0 ["car"] 1)))
    (by norm_num [update, updateFull, withEpoch, detPass, detStep, find_matching_object,
      matchPred, iou, mkTracker, dictModify, dictSet, dictGet, missUpdate, newObjOf,
      matchMod, List.find?, max_def, min_def])
    rfl rfl rfl
    (by norm_num [update, updateFull, withEpoch, detPass, detStep, find_matching_object,
      matchPred, iou, mkTracker, dictModify, dictSet, dictGet, missUpdate, newObjOf,
      matchMod, List.find?, max_def, min_def])
    (by norm_num [update, updateFull, withEpoch, detPass, detStep, find_matching_object,
      matchPred, iou, mkTracker, dictModify, dictSet, dictGet, missUpdate, newObjOf,
      matchMod, List.find?, max_def, min_def])

theorem update_ids_extend {t : ObjectTracker} (hI : Inv t) (ds : List Detection) (ft : ℚ) :
    ∃ ext, (update t ds ft).tracked_objects.map Obj.id =
      t.tracked_objects.map Obj.id ++ ext := by
  have h := detPass_spec ds (withEpoch t ft) [] ft (withEpoch_inv hI ft)
  obtain ⟨ext, hext⟩ := h.2.2.2.2.2.2.1
  refine ⟨ext, ?_⟩
  rw [update_objects, List.map_map]
  have hcomp : (Obj.id ∘ missUpdate (detPass (withEpoch t ft) [] ds ft).1.missing_threshold
      (detPass (withEpoch t ft) [] ds ft).2.1) = Obj.id := by
    funext o
    exact missUpdate_id _ _ o
  rw [hcomp, hext]
  rfl

/-- Claim C6: in every reachable tracker state the ids in creation order
are exactly `1, 2, ..., n` (so the first object ever created has id 1 and
ids are strictly increasing with no reuse), `next_object_id` is `n + 1`,
and a further `update` call only appends ids — entries are never deleted
and no id is ever reassigned. -/
theorem claim_C6 (t : ObjectTracker) (ds : List Detection) (ft : ℚ)
    (hR : Reachable t) :
    t.tracked_objects.map Obj.id = List.range' 1 t.tracked_objects.length ∧
    t.next_object_id = t.tracked_objects.length + 1 ∧
    (∃ ext, (update t ds ft).tracked_objects.map Obj.id =
      t.tracked_objects.map Obj.id ++ ext) := by
  have hI := reachable_inv hR
  exact ⟨hI.1, hI.2, update_ids_extend hI ds ft⟩

/-- Witness for C6 on the state reached after one creating call. -/
theorem claim_C6_witness :
    (update (mkTracker 0 ["car"] 20) [⟨⟨0, 0, 1, 1⟩, "car"⟩] 0).tracked_objects.map Obj.id =
      List.range' 1
        (update (mkTracker 0 ["car"] 20) [⟨⟨0, 0, 1, 1⟩, "car"⟩] 0).tracked_objects.length ∧
    (update (mkTracker 0 ["car"] 20) [⟨⟨0, 0, 1, 1⟩, "car"⟩] 0).next_object_id =
      (update (mkTracker 0 ["car"] 20) [⟨⟨0, 0, 1, 1⟩, "car"⟩] 0).tracked_objects.length + 1 ∧
    (∃ ext,
      (update (update (mkTracker 0 ["car"] 20) [⟨⟨0, 0, 1, 1⟩, "car"⟩] 0)
          [⟨⟨3, 3, 5, 5⟩, "car"⟩] 1).tracked_objects.map Obj.id =
        (update (mkTracker 0 ["car"] 20) [⟨⟨0, 0, 1, 1⟩, "car"⟩] 0).tracked_objects.map
          Obj.id ++ ext) :=
  claim_C6 (update (mkTracker 0 ["car"] 20) [⟨⟨0, 0, 1, 1⟩, "car"⟩] 0)
    [⟨⟨3, 3, 5, 5⟩, "car"⟩] 1
    (Reachable.step [⟨⟨0, 0, 1, 1⟩, "car"⟩] 0 (Reachable.init 0 ["car"] 20))

/-- Claim C10: once an object is retired (`missing = true`) in a reachable
state, any further `update` call leaves its whole record unchanged — bbox,
`first_seen`, `last_seen`, `total_time` and `missing_frames` are frozen;
in particular `missing_frames` stops incrementing. -/
theorem claim_C10 (t : ObjectTracker) (r : Obj) (ds : List Detection) (ft : ℚ)
    (hR : Reachable t) (hr : r ∈ t.tracked_objects) (hmiss : r.missing = true) :
    dictGet (update t ds ft).tracked_objects r.id = some r ∧
    r ∈ (update t ds ft).tracked_objects := by
  have h := update_retired_frozen (reachable_inv hR) hr hmiss ds ft
  exact ⟨h, (mem_of_dictGet h).1⟩

/-- Witness for C10: the object retired at frame 1 (threshold 1) is
bitwise unchanged by an empty update at frame 5. -/
theorem claim_C10_witness :
    dictGet (update (update (update (mkTracker 0 ["car"] 1) [⟨⟨0, 0, 1, 1⟩, "car"⟩] 0) [] 1)
        [] 5).tracked_objects
      (Obj.id { id := 1, label := "car", bbox := ⟨0, 0, 1, 1⟩,
                first_seen := 0, last_seen := 0, total_time := 0,
                missing_frames := 1, missing := true }) =
      some { id := 1, label := "car", bbox := ⟨0, 0, 1, 1⟩,
             first_seen := 0, last_seen := 0, total_time := 0,
             missing_frames := 1, missing := true } ∧
    ({ id := 1, label := "car", bbox := ⟨0, 0, 1, 1⟩,
       first_seen := 0, last_seen := 0, total_time := 0,
       missing_frames := 1, missing := true } : Obj) ∈
      (update (update (update (mkTracker 0 ["car"] 1) [⟨⟨0, 0, 1, 1⟩, "car"⟩] 0) [] 1)
        [] 5).tracked_objects :=
  claim_C10
    (update (update (mkTracker 0 ["car"] 1) [⟨⟨0, 0, 1, 1⟩, "car"⟩] 0) [] 1)
    { id := 1, label := "car", bbox := ⟨0, 0, 1, 1⟩,
      first_seen := 0, last_seen := 0, total_time := 0,
      missing_frames := 1, missing := true }
    [] 5
    (Reachable.step [] 1 (Reachable.step [⟨⟨0, 0, 1, 1⟩, "car"⟩] 0
      (Reachable.init 0 ["car"] 1)))
    (by norm_num [update, updateFull, withEpoch, detPass, detStep, find_matching_object,
      matchPred, iou, mkTracker, dictModify, dictSet, dictGet, missUpdate, newObjOf,
      matchMod, List.find?, max_def, min_def])
    rfl

/-- A detection with a non-selected label is skipped by the detection
loop: state and matched set are as if it were absent. -/
theorem detPass_skip_mid (ds1 : List Detection) :
    ∀ (t : ObjectTracker) (m : List Nat) (d : Detection) (ds2 : List Detection) (ft : ℚ),
    d.label ∉ t.selected_objects →
    (detPass t m (ds1 ++ d :: ds2) ft).1 = (detPass t m (ds1 ++ ds2) ft).1 ∧
    (detPass t m (ds1 ++ d :: ds2) ft).2.1 = (detPass t m (ds1 ++ ds2) ft).2.1 := by
  induction ds1 with
  | nil =>
    intro t m d ds2 ft h
    rw [List.nil_append, List.nil_append, detPass_cons_fst, detPass_cons_matched,
      detStep_skip h]
    exact ⟨rfl, rfl⟩
  | cons d1 rest ih =>
    intro t m d ds2 ft h
    rw [List.cons_append, List.cons_append, detPass_cons_fst, detPass_cons_matched,
      detPass_cons_fst t m d1 (rest ++ ds2) ft, detPass_cons_matched t m d1
      (rest ++ ds2) ft]
    have h1 : d.label ∉ (detStep t m d1 ft).1.selected_objects := by
      rw [(detStep_config t m d1 ft).2.1]
      exact h
    exact ih (detStep t m d1 ft).1 (detStep t m d1 ft).2.1 d ds2 ft h1

/-- Claim C8: a detection whose label is not in the configured allow-list
has no effect at all on the `update` call: the resulting tracker state is
identical to the one produced without that detection. -/
theorem claim_C8 (t : ObjectTracker) (ds1 ds2 : List Detection) (d : Detection)
    (ft : ℚ) (h : d.label ∉ t.selected_objects) :
    update t (ds1 ++ d :: ds2) ft = update t (ds1 ++ ds2) ft := by
  have h0 : d.label ∉ (withEpoch t ft).selected_objects := h
  have hp := detPass_skip_mid ds1 (withEpoch t ft) [] d ds2 ft h0
  have key : ∀ p q : ObjectTracker × List Nat × List (Option Nat),
      p.1 = q.1 → p.2.1 = q.2.1 →
      ({ p.1 with tracked_objects :=
          p.1.tracked_objects.map (missUpdate p.1.missing_threshold p.2.1) } :
        ObjectTracker) =
      { q.1 with tracked_objects :=
          q.1.tracked_objects.map (missUpdate q.1.missing_threshold q.2.1) } := by
    intro p q h1 h2
    rw [h1, h2]
  exact key (detPass (withEpoch t ft) [] (ds1 ++ d :: ds2) ft)
    (detPass (withEpoch t ft) [] (ds1 ++ ds2) ft) hp.1 hp.2

/-- Witness for C8: a "dog" detection is ignored when only "car" is
selected. -/
theorem claim_C8_witness :
    update (mkTracker 0 ["car"] 20)
        ([] ++ ⟨⟨0, 0, 1, 1⟩, "dog"⟩ :: [⟨⟨0, 0, 1, 1⟩, "car"⟩]) 0 =
      update (mkTracker 0 ["car"] 20) ([] ++ [⟨⟨0, 0, 1, 1⟩, "car"⟩]) 0 :=
  claim_C8 (mkTracker 0 ["car"] 20) [] [⟨⟨0, 0, 1, 1⟩, "car"⟩] ⟨⟨0, 0, 1, 1⟩, "dog"⟩ 0
    (by simp [mkTracker])

/-! Membership facts about the grouped summary. -/

theorem summaryAdd_mem (s : List (String × List SummaryEntry)) (label : String)
    (e : SummaryEntry) :
    ∃ es, (label, es) ∈ summaryAdd s label e ∧ e ∈ es := by
  induction s with
  | nil => exact ⟨[e], List.mem_singleton.mpr rfl, List.mem_singleton.mpr rfl⟩
  | cons p rest ih =>
    obtain ⟨l, es⟩ := p
    simp only [summaryAdd]
    by_cases h : l = label
    · subst h
      rw [if_pos rfl]
      exact ⟨es ++ [e], List.mem_cons_self _ _, List.mem_append_right _
        (List.mem_singleton.mpr rfl)⟩
    · rw [if_neg h]
      obtain ⟨es', hmem, he⟩ := ih
      exact ⟨es', List.mem_cons_of_mem _ hmem, he⟩

theorem summaryAdd_mem_preserve {s : List (String × List SummaryEntry)}
    {l0 : String} {es0 : List SummaryEntry} (h : (l0, es0) ∈ s)
    (label : String) (e : SummaryEntry) :
    ∃ es', (l0, es') ∈ summaryAdd s label e ∧ ∀ x ∈ es0, x ∈ es' := by
  induction s with
  | nil => cases h
  | cons p rest ih =>
    obtain ⟨l, es⟩ := p
    simp only [summaryAdd]
    rcases List.mem_cons.mp h with he0 | hrest
    · injection he0 with hl hes
      subst hl
      subst hes
      by_cases hl : l0 = label
      · subst hl
        rw [if_pos rfl]
        exact ⟨es0 ++ [e], List.mem_cons_self _ _, fun x hx => List.mem_append_left _ hx⟩
      · rw [if_neg hl]
        exact ⟨es0, List.mem_cons_self _ _, fun x hx => hx⟩
    · by_cases hl : l = label
      · subst hl
        rw [if_pos rfl]
        exact ⟨es0, List.mem_cons_of_mem _ hrest, fun x hx => hx⟩
      · rw [if_neg hl]
        obtain ⟨es', hmem, hsub⟩ := ih hrest
        exact ⟨es', List.mem_cons_of_mem _ hmem, hsub⟩

theorem summary_foldl_preserve (objs : List Obj) (f : Obj → SummaryEntry) :
    ∀ (s : List (String × List SummaryEntry)) {l0 : String} {es0 : List SummaryEntry},
    (l0, es0) ∈ s →
    ∃ es', (l0, es') ∈ objs.foldl (fun acc o => summaryAdd acc o.label (f o)) s ∧
      ∀ x ∈ es0, x ∈ es' := by
  induction objs with
  | nil =>
    intro s l0 es0 hmem
    exact ⟨es0, hmem, fun x hx => hx⟩
  | cons a rest ih =>
    intro s l0 es0 hmem
    obtain ⟨es1, hmem1, hsub1⟩ := summaryAdd_mem_preserve hmem a.label (f a)
    obtain ⟨es2, hmem2, hsub2⟩ := ih (summaryAdd s a.label (f a)) hmem1
    exact ⟨es2, hmem2, fun x hx => hsub2 x (hsub1 x hx)⟩

theorem summary_foldl_mem (objs : List Obj) (f : Obj → SummaryEntry) :
    ∀ (s : List (String × List SummaryEntry)) {o : Obj}, o ∈ objs →
    ∃ es, (o.label, es) ∈ objs.foldl (fun acc o => summaryAdd acc o.label (f o)) s ∧
      f o ∈ es := by
  induction objs with
  | nil => intro s o h; cases h
  | cons a rest ih =>
    intro s o h
    rcases List.mem_cons.mp h with rfl | hrest
    · obtain ⟨es1, hmem1, he1⟩ := summaryAdd_mem s o.label (f o)
      obtain ⟨es2, hmem2, hsub2⟩ := summary_foldl_preserve rest f _ hmem1
      exact ⟨es2, hmem2, hsub2 _ he1⟩
    · exact ih _ hrest

/-- Every tracked object has its summary row, under its label, in
`get_detailed_summary`. -/
theorem get_detailed_summary_mem {t : ObjectTracker} {o : Obj}
    (ho : o ∈ t.tracked_objects) :
    ∃ es, (o.label, es) ∈ get_detailed_summary t ∧
      entryOf (t.first_frame_time.getD 0) o ∈ es :=
  summary_foldl_mem t.tracked_objects (entryOf (t.first_frame_time.getD 0)) [] ho

/-- Claim C9: `get_detailed_summary` reports each object's `first_seen`
and `last_seen` relative to the first-frame epoch (`stored − first_frame_time`),
and an object created by the very first `update` call (the epoch-setting
call) has stored `first_seen` equal to the epoch, hence is reported with
`first_seen = 0`. -/
theorem claim_C9 (t : ObjectTracker) (e : ℚ) (o : Obj)
    (s0 : ObjectTracker) (ds : List Detection) (ft : ℚ) (oid : Nat) (o' : Obj)
    (hR : Reachable s0)
    (he : t.first_frame_time = some e) (ho : o ∈ t.tracked_objects)
    (h0 : s0.first_frame_time = none)
    (hnew : dictGet s0.tracked_objects oid = none)
    (ho' : dictGet (update s0 ds ft).tracked_objects oid = some o') :
    (∃ es, (o.label, es) ∈ get_detailed_summary t ∧
      ({ id := o.id, first_seen := o.first_seen - e, last_seen := o.last_seen - e,
         total_time := o.total_time, missing_frames := o.missing_frames,
         missing := o.missing } : SummaryEntry) ∈ es) ∧
    (update s0 ds ft).first_frame_time = some ft ∧
    o'.first_seen = ft ∧
    (∃ es, (o'.label, es) ∈ get_detailed_summary (update s0 ds ft) ∧
      ({ id := o'.id, first_seen := 0, last_seen := o'.last_seen - ft,
         total_time := o'.total_time, missing_frames := o'.missing_frames,
         missing := o'.missing } : SummaryEntry) ∈ es) := by
  have hI := reachable_inv hR
  have hfft : (update s0 ds ft).first_frame_time = some ft := by
    rw [(update_config s0 ds ft hI).2.2.2, h0]
  have hfs : o'.first_seen = ft := by
    rcases update_entry_char hI ds ft ho' with ⟨w, hw, _⟩ | ⟨_, _, hfs⟩
    · rw [hnew] at hw
      cases hw
    · exact hfs
  refine ⟨?_, hfft, hfs, ?_⟩
  · obtain ⟨es, hmem, hentry⟩ := get_detailed_summary_mem ho
    refine ⟨es, hmem, ?_⟩
    have heq : entryOf (t.first_frame_time.getD 0) o =
        ({ id := o.id, first_seen := o.first_seen - e, last_seen := o.last_seen - e,
           total_time := o.total_time, missing_frames := o.missing_frames,
           missing := o.missing } : SummaryEntry) := by
      rw [he]
      rfl
    rw [← heq]
    exact hentry
  · obtain ⟨es, hmem, hentry⟩ :=
      get_detailed_summary_mem ((mem_of_dictGet ho').1)
    refine ⟨es, hmem, ?_⟩
    have heq : entryOf ((update s0 ds ft).first_frame_time.getD 0) o' =
        ({ id := o'.id, first_seen := 0, last_seen := o'.last_seen - ft,
           total_time := o'.total_time, missing_frames := o'.missing_frames,
           missing := o'.missing } : SummaryEntry) := by
      rw [hfft]
      show entryOf ft o' = _
      unfold entryOf
      rw [hfs, sub_self]
    rw [← heq]
    exact hentry

/-- Witness for C9: the object created by the first call at frame time 3
is reported relative to the epoch 3, with `first_seen = 0`. -/
theorem claim_C9_witness :
    (∃ es, ("car", es) ∈ get_detailed_summary
        (update (mkTracker 0 ["car"] 20) [⟨⟨0, 0, 1, 1⟩, "car"⟩] 3) ∧
      ({ id := 1, first_seen := (3 : ℚ) - 3, last_seen := (3 : ℚ) - 3,
         total_time := 0, missing_frames := 0,
         missing := false } : SummaryEntry) ∈ es) ∧
    (update (mkTracker 0 ["car"] 20) [⟨⟨0, 0, 1, 1⟩, "car"⟩] 3).first_frame_time =
      some 3 ∧
    Obj.first_seen { id := 1, label := "car", bbox := ⟨0, 0, 1, 1⟩,
                     first_seen := 3, last_seen := 3, total_time := 0,
                     missing_frames := 0, missing := false } = 3 ∧
    (∃ es, ("car", es) ∈ get_detailed_summary
        (update (mkTracker 0 ["car"] 20) [⟨⟨0, 0, 1, 1⟩, "car"⟩] 3) ∧
      ({ id := 1, first_seen := 0, last_seen := (3 : ℚ) - 3,
         total_time := 0, missing_frames := 0,
         missing := false } : SummaryEntry) ∈ es) :=
  claim_C9 (update (mkTracker 0 ["car"] 20) [⟨⟨0, 0, 1, 1⟩, "car"⟩] 3) 3
    { id := 1, label := "car", bbox := ⟨0, 0, 1, 1⟩, first_seen := 3, last_seen := 3,
      total_time := 0, missing_frames := 0, missing := false }
    (mkTracker 0 ["car"] 20) [⟨⟨0, 0, 1, 1⟩, "car"⟩] 3 1
    { id := 1, label := "car", bbox := ⟨0, 0, 1, 1⟩, first_seen := 3, last_seen := 3,
      total_time := 0, missing_frames := 0, missing := false }
    (Reachable.init 0 ["car"] 20)
    (by norm_num [update, updateFull, withEpoch, detPass, detStep, find_matching_object,
      matchPred, iou, mkTracker, dictModify, dictSet, dictGet, missUpdate, newObjOf,
      matchMod, List.find?, max_def, min_def])
    (by norm_num [update, updateFull, withEpoch, detPass, detStep, find_matching_object,
      matchPred, iou, mkTracker, dictModify, dictSet, dictGet, missUpdate, newObjOf,
      matchMod, List.find?, max_def, min_def])
    rfl rfl
    (by norm_num [update, updateFull, withEpoch, detPass, detStep, find_matching_object,
      matchPred, iou, mkTracker, dictModify, dictSet, dictGet, missUpdate, newObjOf,
      matchMod, List.find?, max_def, min_def])

/-- One `update` call on an active object matched by no detection of the
call: the streak is incremented, and the object retires exactly when the
incremented streak reaches the threshold. -/
theorem update_unmatched_active {t : ObjectTracker} (hI : Inv t)
    {oid : Nat} {o : Obj} (hget : dictGet t.tracked_objects oid = some o)
    (hmiss : o.missing = false) (ds : List Detection) (ft : ℚ)
    (hnm : oid ∉ (updateFull t ds ft).2.1) :
    dictGet (update t ds ft).tracked_objects oid =
      some (if t.missing_threshold ≤ o.missing_frames + 1 then
        { o with missing_frames := o.missing_frames + 1, missing := true }
      else { o with missing_frames := o.missing_frames + 1 }) := by
  have hid : o.id = oid := (mem_of_dictGet hget).2
  rw [update_unmatched_get hI ds ft hnm, hget, Option.map_some',
    missUpdate_unmatched hmiss (hid ▸ hnm)]

theorem runSeq_cons (t : ObjectTracker) (ds : List Detection) (ft : ℚ)
    (rest : List (List Detection × ℚ)) :
    runSeq t ((ds, ft) :: rest) = runSeq (update t ds ft) rest := rfl

theorem neverMatchedB_cons (oid : Nat) (t : ObjectTracker) (ds : List Detection)
    (ft : ℚ) (rest : List (List Detection × ℚ)) :
    neverMatchedB oid t ((ds, ft) :: rest) =
      (!((updateFull t ds ft).2.1.contains oid) &&
        neverMatchedB oid (update t ds ft) rest) := rfl

theorem not_mem_of_not_contains {l : List Nat} {a : Nat}
    (h : (!(l.contains a)) = true) : a ∉ l := by
  intro hm
  rw [Bool.not_eq_true'] at h
  rw [List.contains, List.elem_iff.mpr hm] at h
  cases h

/-- Streak bookkeeping along a run in which the object is never matched:
starting from streak `k`, after `n ≤ threshold - k` further unmatched
calls the streak is `k + n` and the object is retired exactly when
`k + n` reaches the threshold. -/
theorem c3_aux (steps : List (List Detection × ℚ)) :
    ∀ (t : ObjectTracker) (oid : Nat) (o : Obj) (k : Nat),
    Inv t → dictGet t.tracked_objects oid = some o →
    o.missing = false → o.missing_frames = k →
    neverMatchedB oid t steps = true →
    k < t.missing_threshold →
    k + steps.length ≤ t.missing_threshold →
    ∃ o', dictGet (runSeq t steps).tracked_objects oid = some o' ∧
      ((k + steps.length < t.missing_threshold ∧ o'.missing = false ∧
        o'.missing_frames = k + steps.length) ∨
       (k + steps.length = t.missing_threshold ∧ o'.missing = true)) := by
  induction steps with
  | nil =>
    intro t oid o k hI hget hmiss hk hnm hklt hle
    refine ⟨o, hget, Or.inl ⟨?_, hmiss, ?_⟩⟩
    · simpa using hklt
    · simpa using hk
  | cons st rest ih =>
    intro t oid o k hI hget hmiss hk hnm hklt hle
    obtain ⟨ds, ft⟩ := st
    simp only [List.length_cons] at hle
    rw [neverMatchedB_cons, Bool.and_eq_true] at hnm
    have hnmem : oid ∉ (updateFull t ds ft).2.1 := not_mem_of_not_contains hnm.1
    have hstep := update_unmatched_active hI hget hmiss ds ft hnmem
    have hI' := update_inv hI ds ft
    have hth' : (update t ds ft).missing_threshold = t.missing_threshold :=
      (update_config t ds ft hI).2.2.1
    rw [runSeq_cons]
    by_cases hret : t.missing_threshold ≤ o.missing_frames + 1
    · have hrest : rest = [] := List.length_eq_zero.mp (by omega)
      subst hrest
      rw [if_pos hret] at hstep
      refine ⟨_, hstep, Or.inr ⟨?_, rfl⟩⟩
      simp only [List.length_cons, List.length_nil]
      omega
    · rw [if_neg hret] at hstep
      obtain ⟨o', hget', hdisj⟩ := ih (update t ds ft) oid
        { o with missing_frames := o.missing_frames + 1 } (k + 1) hI' hstep hmiss
        (show o.missing_frames + 1 = k + 1 by omega) hnm.2
        (by rw [hth']; omega) (by rw [hth']; omega)
      refine ⟨o', hget', ?_⟩
      rw [hth'] at hdisj
      simp only [List.length_cons]
      rcases hdisj with ⟨h1, h2, h3⟩ | ⟨h1, h2⟩
      · exact Or.inl ⟨by omega, h2, by omega⟩
      · exact Or.inr ⟨by omega, h2⟩

/-- Claim C3: an active object with a fresh streak that then goes
unmatched on consecutive `update` calls is still active (with streak
`missingThreshold - 1`) after `missingThreshold - 1` unmatched calls, and
is retired exactly on the `missingThreshold`-th unmatched call. -/
theorem claim_C3 (t : ObjectTracker) (oid : Nat) (o : Obj)
    (steps1 steps2 : List (List Detection × ℚ))
    (hR : Reachable t) (hget : dictGet t.tracked_objects oid = some o)
    (hmiss : o.missing = false) (h0 : o.missing_frames = 0)
    (hth : 0 < t.missing_threshold)
    (hnm1 : neverMatchedB oid t steps1 = true)
    (hlen1 : steps1.length = t.missing_threshold - 1)
    (hnm2 : neverMatchedB oid t steps2 = true)
    (hlen2 : steps2.length = t.missing_threshold) :
    (∃ o', dictGet (runSeq t steps1).tracked_objects oid = some o' ∧
      o'.missing = false ∧ o'.missing_frames = t.missing_threshold - 1) ∧
    (∃ o', dictGet (runSeq t steps2).tracked_objects oid = some o' ∧
      o'.missing = true) := by
  have hI := reachable_inv hR
  constructor
  · obtain ⟨o', hget', hdisj⟩ :=
      c3_aux steps1 t oid o 0 hI hget hmiss h0 hnm1 hth (by omega)
    rcases hdisj with ⟨_, h2, h3⟩ | ⟨h1, _⟩
    · exact ⟨o', hget', h2, by omega⟩
    · exact absurd h1 (by omega)
  · obtain ⟨o', hget', hdisj⟩ :=
      c3_aux steps2 t oid o 0 hI hget hmiss h0 hnm2 hth (by omega)
    rcases hdisj with ⟨h1, _, _⟩ | ⟨_, h2⟩
    · exact absurd h1 (by omega)
    · exact ⟨o', hget', h2⟩

/-- Witness for C3: with threshold 2, the object created at frame 0 is
still active after one empty frame and retired after two. -/
theorem claim_C3_witness :
    (∃ o', dictGet (runSeq (update (mkTracker 0 ["car"] 2) [⟨⟨0, 0, 1, 1⟩, "car"⟩] 0)
        [([], 1)]).tracked_objects 1 = some o' ∧
      o'.missing = false ∧
      o'.missing_frames =
        (update (mkTracker 0 ["car"] 2) [⟨⟨0, 0, 1, 1⟩, "car"⟩] 0).missing_threshold - 1) ∧
    (∃ o', dictGet (runSeq (update (mkTracker 0 ["car"] 2) [⟨⟨0, 0, 1, 1⟩, "car"⟩] 0)
        [([], 1), ([], 2)]).tracked_objects 1 = some o' ∧
      o'.missing = true) :=
  claim_C3 (update (mkTracker 0 ["car"] 2) [⟨⟨0, 0, 1, 1⟩, "car"⟩] 0) 1
    { id := 1, label := "car", bbox := ⟨0, 0, 1, 1⟩, first_seen := 0, last_seen := 0,
      total_time := 0, missing_frames := 0, missing := false }
    [([], 1)] [([], 1), ([], 2)]
    (Reachable.step [⟨⟨0, 0, 1, 1⟩, "car"⟩] 0 (Reachable.init 0 ["car"] 2))
    (by norm_num [update, updateFull, withEpoch, detPass, detStep, find_matching_object,
      matchPred, iou, mkTracker, dictModify, dictSet, dictGet, missUpdate, newObjOf,
      matchMod, List.find?, max_def, min_def])
    rfl rfl
    (by norm_num [update, updateFull, withEpoch, detPass, detStep, find_matching_object,
      matchPred, iou, mkTracker, dictModify, dictSet, dictGet, missUpdate, newObjOf,
      matchMod, List.find?, max_def, min_def])
    (by norm_num [neverMatchedB, update, updateFull, withEpoch, detPass, detStep,
      find_matching_object, matchPred, iou, mkTracker, dictModify, dictSet, dictGet,
      missUpdate, newObjOf, matchMod, List.find?, List.contains, List.elem,
      max_def, min_def])
    (by norm_num [update, updateFull, withEpoch, detPass, detStep, find_matching_object,
      matchPred, iou, mkTracker, dictModify, dictSet, dictGet, missUpdate, newObjOf,
      matchMod, List.find?, max_def, min_def])
    (by norm_num [neverMatchedB, update, updateFull, withEpoch, detPass, detStep,
      find_matching_object, matchPred, iou, mkTracker, dictModify, dictSet, dictGet,
      missUpdate, newObjOf, matchMod, List.find?, List.contains, List.elem,
      max_def, min_def])
    (by norm_num [update, updateFull, withEpoch, detPass, detStep, find_matching_object,
      matchPred, iou, mkTracker, dictModify, dictSet, dictGet, missUpdate, newObjOf,
      matchMod, List.find?, max_def, min_def])

theorem updateFull_trace (t : ObjectTracker) (ds : List Detection) (ft : ℚ) :
    (updateFull t ds ft).2.2 = (detPass (withEpoch t ft) [] ds ft).2.2 := rfl

theorem find_matching_split {t : ObjectTracker} {bbox : Box} {label : String}
    {mid : Nat} (h : find_matching_object t bbox label = some mid) :
    ∃ o l1 l2, t.tracked_objects = l1 ++ o :: l2 ∧ o.id = mid ∧
      matchPred t bbox label o = true ∧
      ∀ x ∈ l1, matchPred t bbox label x = false := by
  unfold find_matching_object at h
  cases hf : t.tracked_objects.find? (matchPred t bbox label) with
  | none => rw [hf] at h; cases h
  | some o =>
    rw [hf] at h
    obtain ⟨hp, l1, l2, hsplit, hfail⟩ := List.find?_eq_some.mp hf
    exact ⟨o, l1, l2, hsplit, by simpa using h, hp,
      fun x hx => by simpa using hfail x hx⟩

theorem dictModify_append {l1 : List Obj} {k : Nat} (h : ∀ x ∈ l1, x.id ≠ k)
    (l2 : List Obj) (f : Obj → Obj) :
    dictModify (l1 ++ l2) k f = l1 ++ dictModify l2 k f := by
  induction l1 with
  | nil => rfl
  | cons a rest ih =>
    simp only [List.cons_append, dictModify]
    rw [if_neg (by simpa using h a (List.mem_cons_self a rest))]
    show a :: dictModify (rest ++ l2) k f = a :: (rest ++ dictModify l2 k f)
    rw [ih (fun x hx => h x (List.mem_cons_of_mem a hx))]

/-- Counterexample to claim C1 as stated: after a "car" object with id 1
exists, an `update` call carrying the same detection twice resolves both
detections to object 1 — the list of resolved ids `[1, 1]` has a
duplicate, so two detections of one call matched the same object. -/
theorem claim_C1_counterexample :
    (updateFull (update (mkTracker 0 ["car"] 20) [⟨⟨0, 0, 1, 1⟩, "car"⟩] 0)
        [⟨⟨0, 0, 1, 1⟩, "car"⟩, ⟨⟨0, 0, 1, 1⟩, "car"⟩] 1).2.2 =
      [some 1, some 1] ∧
    ¬ (List.reduceOption (updateFull (update (mkTracker 0 ["car"] 20)
        [⟨⟨0, 0, 1, 1⟩, "car"⟩] 0)
        [⟨⟨0, 0, 1, 1⟩, "car"⟩, ⟨⟨0, 0, 1, 1⟩, "car"⟩] 1).2.2).Nodup := by
  have h : (updateFull (update (mkTracker 0 ["car"] 20) [⟨⟨0, 0, 1, 1⟩, "car"⟩] 0)
      [⟨⟨0, 0, 1, 1⟩, "car"⟩, ⟨⟨0, 0, 1, 1⟩, "car"⟩] 1).2.2 = [some 1, some 1] := by
    norm_num [update, updateFull, withEpoch, detPass, detStep, find_matching_object,
      matchPred, iou, mkTracker, dictModify, dictSet, dictGet, missUpdate, newObjOf,
      matchMod, List.find?, max_def, min_def]
  refine ⟨h, ?_⟩
  rw [h]
  decide

/-- Claim C1 amended: each detection of a call resolves to at most one
object (its trace entry is a single id), but a tracked object may be
matched by more than one detection in the same call — objects already
matched are not excluded, so a call carrying the same matching detection
twice resolves both copies to the same object id. -/
theorem claim_C1_amended (t : ObjectTracker) (d : Detection) (ft : ℚ) (mid : Nat)
    (hR : Reachable t)
    (hsel : d.label ∈ t.selected_objects)
    (hfind : find_matching_object t d.bbox d.label = some mid)
    (hthr : t.iou_threshold < 1)
    (hw : 0 < d.bbox.x2 - d.bbox.x1) (hh : 0 < d.bbox.y2 - d.bbox.y1) :
    (updateFull t [d, d] ft).2.2 = [some mid, some mid] := by
  have hI := reachable_inv hR
  obtain ⟨o, l1, l2, hsplit, hoid, hpred, hfail⟩ := find_matching_split hfind
  have hl1 : ∀ x ∈ l1, x.id ≠ mid := by
    intro x hx he
    have hnodup := hI.ids_nodup
    rw [hsplit, List.map_append, List.map_cons] at hnodup
    obtain ⟨-, -, hdisj⟩ := List.nodup_append.mp hnodup
    exact hdisj (List.mem_map_of_mem Obj.id hx)
      (by rw [he, ← hoid]; exact List.mem_cons_self _ _)
  have hmod : dictModify t.tracked_objects mid (matchMod d ft) =
      l1 ++ matchMod d ft o :: l2 := by
    rw [hsplit, dictModify_append hl1]
    simp only [dictModify]
    rw [if_pos (by simpa using hoid)]
  have hpredmod : matchPred t d.bbox d.label (matchMod d ft o) = true := by
    have hmiss := matchPred_missing hpred
    have hlab := matchPred_label hpred
    simp [matchPred, matchMod, hmiss, hlab, iou_self hw hh, hthr]
  have hstep1 : detStep (withEpoch t ft) [] d ft =
      (({ withEpoch t ft with
            tracked_objects :=
              dictModify (withEpoch t ft).tracked_objects mid (matchMod d ft) } :
          ObjectTracker),
       [mid], some mid) := detStep_match hsel hfind
  have hfind2 : find_matching_object
      ({ withEpoch t ft with
          tracked_objects :=
            dictModify (withEpoch t ft).tracked_objects mid (matchMod d ft) } :
        ObjectTracker) d.bbox d.label = some mid := by
    show (List.find? (matchPred _ d.bbox d.label)
      (dictModify (withEpoch t ft).tracked_objects mid (matchMod d ft))).map Obj.id =
      some mid
    have hpeq : matchPred
        ({ withEpoch t ft with
            tracked_objects :=
              dictModify (withEpoch t ft).tracked_objects mid (matchMod d ft) } :
          ObjectTracker) d.bbox d.label = matchPred t d.bbox d.label := by
      funext x
      rfl
    rw [hpeq, show dictModify (withEpoch t ft).tracked_objects mid (matchMod d ft) =
        dictModify t.tracked_objects mid (matchMod d ft) from rfl,
      hmod, List.find?_append,
      List.find?_eq_none.mpr (fun x hx => by rw [hfail x hx]; exact Bool.false_ne_true),
      Option.none_or, List.find?_cons_of_pos _ hpredmod, Option.map_some']
    rw [show (matchMod d ft o).id = o.id from rfl, hoid]
  have hstep2 := @detStep_match
      ({ withEpoch t ft with
          tracked_objects :=
            dictModify (withEpoch t ft).tracked_objects mid (matchMod d ft) } :
        ObjectTracker) [mid] d ft mid hsel hfind2
  rw [updateFull_trace, detPass_cons_trace, hstep1, detPass_singleton]
  show (some mid) :: [(detStep _ [mid] d ft).2.2] = [some mid, some mid]
  rw [hstep2]

/-- Witness for the amended C1: with object 1 present, the call carrying
the identical detection twice resolves both to id 1. -/
theorem claim_C1_amended_witness :
    (updateFull (update (mkTracker 0 ["car"] 20) [⟨⟨0, 0, 1, 1⟩, "car"⟩] 0)
        [⟨⟨0, 0, 1, 1⟩, "car"⟩, ⟨⟨0, 0, 1, 1⟩, "car"⟩] 1).2.2 =
      [some 1, some 1] :=
  claim_C1_amended (update (mkTracker 0 ["car"] 20) [⟨⟨0, 0, 1, 1⟩, "car"⟩] 0)
    ⟨⟨0, 0, 1, 1⟩, "car"⟩ 1 1
    (Reachable.step [⟨⟨0, 0, 1, 1⟩, "car"⟩] 0 (Reachable.init 0 ["car"] 20))
    (by norm_num [update, updateFull, withEpoch, detPass, detStep, find_matching_object,
      matchPred, iou, mkTracker, dictModify, dictSet, dictGet, missUpdate, newObjOf,
      matchMod, List.find?, max_def, min_def])
    (by norm_num [update, updateFull, withEpoch, detPass, detStep, find_matching_object,
      matchPred, iou, mkTracker, dictModify, dictSet, dictGet, missUpdate, newObjOf,
      matchMod, List.find?, max_def, min_def])
    (by norm_num [update, updateFull, withEpoch, detPass, detStep, find_matching_object,
      matchPred, iou, mkTracker, dictModify, dictSet, dictGet, missUpdate, newObjOf,
      matchMod, List.find?, max_def, min_def])
    (by norm_num) (by norm_num)

/-- Claim C2, behaviour of the code at the failing input: at the top of an
iteration it is catch-up time (`current_time - last_catchup_time =
1 ≥ 1/2 = catchup_interval`) and the queue is empty, yet the iteration
does process a frame — the loop variables still hold the previously
processed frame 7, which is re-processed: the processed-frame count rises
from 3 to 4 and the tracker receives another `update` call with frame 7's
detections.  On a fresh start (loop variables never assigned) the same
situation instead reads unassigned variables, raising `NameError`.  The
spec says no frame is processed in that iteration. -/
theorem claim_C2_code_behavior :
    (loopIter
        { queue := [], regs := some ⟨7, 2, [⟨⟨0, 0, 1, 1⟩, "car"⟩]⟩,
          last_catchup_time := 0, processed_frame_count := 3,
          tracker := mkTracker 0 ["car"] 20, start_time := 0 }
        1 (1/2)).2 =
      IterResult.processedFrame ⟨7, 2, [⟨⟨0, 0, 1, 1⟩, "car"⟩]⟩ ∧
    (loopIter
        { queue := [], regs := some ⟨7, 2, [⟨⟨0, 0, 1, 1⟩, "car"⟩]⟩,
          last_catchup_time := 0, processed_frame_count := 3,
          tracker := mkTracker 0 ["car"] 20, start_time := 0 }
        1 (1/2)).1.processed_frame_count = 4 ∧
    (loopIter
        { queue := [], regs := some ⟨7, 2, [⟨⟨0, 0, 1, 1⟩, "car"⟩]⟩,
          last_catchup_time := 0, processed_frame_count := 3,
          tracker := mkTracker 0 ["car"] 20, start_time := 0 }
        1 (1/2)).1.tracker =
      update (mkTracker 0 ["car"] 20) [⟨⟨0, 0, 1, 1⟩, "car"⟩] (2 - 0) ∧
    (loopIter
        { queue := [], regs := none,
          last_catchup_time := 0, processed_frame_count := 0,
          tracker := mkTracker 0 ["car"] 20, start_time := 0 }
        1 (1/2)).2 = IterResult.nameError := by
  refine ⟨?_, ?_, ?_, ?_⟩ <;>
    norm_num [loopIter, processFrame, List.getLast?]

end Track
